import Mathlib

/-!
Verification development for the py2puml code base (static class-model
extraction from Python sources).

The relevant Python modules are shallowly embedded here:

* `py2puml/methods.py`    (namespace `Py2Puml.Methods`): the assignment /
  constructor analyzer operating on a fragment of the Python AST;
* `py2puml/classes.py`    (namespace `Py2Puml.Classes`): the class-model
  builder;
* `py2puml/module.py` and `py2puml/package.py` (namespace
  `Py2Puml.Modules`): records of imports, relative-import resolution and
  base-class resolution;
* `py2puml/parsing/moduleresolver.py` (namespace `Py2Puml.Resolving`): the
  reflective type resolver;
* `py2puml/parsing/astvisitors.py` (namespace `Py2Puml.AstVisitors`): the
  older constructor visitor with its variable namespace and the
  composition-relationship registry.

Python-level semantics is made explicit: mutation becomes state passing,
exceptions (AttributeError, IndexError, TypeError, ValueError and the
explicit raise in relative-import resolution) become `Except String`,
and Python dict objects become insertion-ordered association lists with
overwrite-in-place insertion (`dictInsert`).
-/

namespace Py2Puml

/-- How Python renders an optional string inside an f-string:
`None` renders as the literal text "None". -/
def pyOptStr : Option String → String
  | none => "None"
  | some s => s

/-- Python `text.split('.')` (structurally recursive over the character
list, so that concrete instances reduce): the maximal dot-free pieces,
with empty pieces kept, and `[""]` for the empty string. -/
def splitOnDotAux : List Char → List Char → List String
  | [], acc => [String.mk acc.reverse]
  | c :: rest, acc =>
    if c = '.' then String.mk acc.reverse :: splitOnDotAux rest []
    else splitOnDotAux rest (c :: acc)

/-- Python `text.split('.')`. -/
def splitOnDot (s : String) : List String :=
  splitOnDotAux s.data []

/-- Python `'.' in text`. -/
def containsDot (s : String) : Bool :=
  s.data.any (fun c => c = '.')

/-- Python `text.startswith(pre)`. -/
def pyStartsWith (s pre : String) : Bool :=
  pre.data.isPrefixOf s.data

/-- Insertion into an insertion-ordered association list with Python
`dict` semantics: writing to an existing key overwrites the value in
place (the key keeps its original position), writing to a fresh key
appends it at the end. -/
def dictInsert {α : Type} (d : List (String × α)) (k : String) (v : α) :
    List (String × α) :=
  if d.any (fun p => p.1 == k) then
    d.map (fun p => if p.1 == k then (k, v) else p)
  else
    d ++ [(k, v)]

/-- The fragment of the Python expression AST used by the visitors of
`py2puml/methods.py` and `py2puml/parsing/astvisitors.py`. The
`subscript` constructor carries the sliced value directly (the
`ast.Index` wrapper of the Python version the code targets is elided,
its `value` field is the `slice` argument here). -/
inductive PyExpr : Type where
  | name (id : String)
  | attr (value : PyExpr) (attrName : String)
  | constant (value : String)
  | binop (left : PyExpr) (right : PyExpr)
  | tup (elts : List PyExpr)
  | subscript (value : PyExpr) (slice : PyExpr)

/-- Python statements handled by the assignment/constructor analyzers:
`ast.Assign` (`targets`, `value`) and `ast.AnnAssign`
(`target`, annotation, optional `value`). -/
inductive StmtNode : Type where
  | assign (targets : List PyExpr) (value : PyExpr)
  | annassign (target : PyExpr) (ann : PyExpr) (value : Option PyExpr)

/-- A function argument node (`ast.arg`): its name and optional
annotation expression. -/
structure ArgNode where
  arg : String
  ann : Option PyExpr := none

/-- `ast.FunctionDef`: name, arguments, body statements, decorator
expressions, optional return annotation. -/
structure FunctionDefNode where
  name : String
  args : List ArgNode := []
  body : List StmtNode := []
  decorator_list : List PyExpr := []
  returns : Option PyExpr := none

mutual

/-- The element collection shared by `DecoratorVisitor` (methods.py) and
`BaseClassVisitor` (classes.py / astvisitors.py): `visit_Name` appends
the identifier, `visit_Attribute` first recurses (generic_visit) and
then appends the attribute name; all other nodes fall back to
`generic_visit`, collecting from their children in field order. -/
def collectDottedElements : PyExpr → List String
  | .name id => [id]
  | .attr v a => collectDottedElements v ++ [a]
  | .constant _ => []
  | .binop l r => collectDottedElements l ++ collectDottedElements r
  | .tup elts => collectDottedElementsList elts
  | .subscript v s => collectDottedElements v ++ collectDottedElements s

/-- `collectDottedElements` mapped over a child list. -/
def collectDottedElementsList : List PyExpr → List String
  | [] => []
  | e :: rest => collectDottedElements e ++ collectDottedElementsList rest

end

end Py2Puml

namespace Py2Puml.Methods

/-- `py2puml/attribute.py`: `InstanceAttribute` — name plus optional
type expression (a display string). Structural equality on both
fields, as in `Attribute.__eq__`. -/
structure InstanceAttribute where
  name : String
  type_expr : Option String := none
deriving DecidableEq, Repr

/-- `py2puml/attribute.py`: `ClassAttribute` — same fields as
`InstanceAttribute`, flagged static for display. -/
structure ClassAttribute where
  name : String
  type_expr : Option String := none
deriving DecidableEq, Repr

/-- `py2puml/methods.py`: `AttributeAssignment` — the assignment of
value variables to one instance attribute. -/
structure AttributeAssignment where
  instance_attribute : InstanceAttribute
  variable_names : List String := []
deriving DecidableEq, Repr

mutual

/-- `py2puml/methods.py`: `TypeVisitor.visit` — string representation of
a type annotation expression. `visit_Name` returns the identifier,
`visit_Attribute` returns the final attribute name, `visit_Constant`
returns the literal, and `visit_Subscript` joins the slice elements
(`', '.join` raises a TypeError when a child yields `None`; the
`node.value.id` access raises an AttributeError when the subscripted
value is not a bare name). Node kinds without a visitor method go
through `generic_visit`, which returns `None`. -/
def typeVisit : PyExpr → Except String (Option String)
  | .name id => .ok (some id)
  | .attr _ a => .ok (some a)
  | .constant v => .ok (some v)
  | .binop _ _ => .ok none
  | .tup _ => .ok none
  | .subscript v slice => do
    let datatypes ← match slice with
      | .tup elts => typeVisitList elts
      | e => do
        let d ← typeVisit e
        pure [d]
    let strs ← datatypes.mapM (fun d => match d with
      | some s => Except.ok s
      | none => Except.error "TypeError: sequence item: expected str instance")
    match v with
    | .name vid => .ok (some (vid ++ "[" ++ String.intercalate ", " strs ++ "]"))
    | _ => .error "AttributeError: object has no attribute id"

/-- `typeVisit` applied to each child of a subscript slice. -/
def typeVisitList : List PyExpr → Except String (List (Option String))
  | [] => .ok []
  | e :: rest => do
    let d ← typeVisit e
    let ds ← typeVisitList rest
    .ok (d :: ds)

end

/-- Mutable state of `py2puml/methods.py` `AssignmentVisitor`:
`attribute_assignments`, the current index `_index` (an int that the
tuple-value loop can set to `None`), the two phase flags and the
`_attr_indexes` alignment table. -/
structure AssignmentVisitorState where
  attribute_assignments : List AttributeAssignment := []
  curIndex : Option Nat := some 0
  visiting_target : Bool := false
  visiting_value : Bool := false
  attr_indexes : List (Option Nat) := []
deriving DecidableEq, Repr

/-- `AssignmentVisitor.visit_Attribute`: only attribute accesses rooted
at the bare name `self` register a new `AttributeAssignment`; when the
alignment table is non-empty the current index slot is pointed at the
new record first. Any other attribute access is ignored without
recursing into its children. -/
def visit_Attribute (s : AssignmentVisitorState) (value : PyExpr)
    (attrName : String) : Except String AssignmentVisitorState :=
  match value with
  | .name vid =>
    if vid == "self" then do
      let s ←
        if s.attr_indexes.length > 0 then
          match s.curIndex with
          | none => .error "TypeError: list indices must be integers"
          | some i =>
            if i < s.attr_indexes.length then
              .ok { s with attr_indexes :=
                      s.attr_indexes.set i (some s.attribute_assignments.length) }
            else
              .error "IndexError: list assignment index out of range"
        else
          .ok s
      let newAssignment : AttributeAssignment :=
        { instance_attribute := { name := attrName } }
      .ok { s with attribute_assignments :=
              s.attribute_assignments ++ [newAssignment] }
    else
      .ok s
  | _ => .ok s

/-- `AssignmentVisitor.visit_Name`: while visiting the right-hand side
and at least one attribute assignment exists, the identifier is appended
to the variable names of the record at the current index. -/
def visit_Name (s : AssignmentVisitorState) (id : String) :
    Except String AssignmentVisitorState :=
  if s.visiting_value && !s.attribute_assignments.isEmpty then
    match s.curIndex with
    | none => .error "TypeError: list indices must be integers"
    | some i =>
      match s.attribute_assignments.get? i with
      | none => .error "IndexError: list index out of range"
      | some aa =>
        let aa' := { aa with variable_names := aa.variable_names ++ [id] }
        .ok { s with attribute_assignments := s.attribute_assignments.set i aa' }
  else
    .ok s

mutual

/-- `AssignmentVisitor.visit` dispatch: `Name`, `Attribute` and `Tuple`
have explicit visitor methods; every other node goes through
`generic_visit`, which visits the children in field order. -/
def visitExpr (s : AssignmentVisitorState) :
    PyExpr → Except String AssignmentVisitorState
  | .name id => visit_Name s id
  | .attr v a => visit_Attribute s v a
  | .constant _ => .ok s
  | .binop l r => do
    let s ← visitExpr s l
    visitExpr s r
  | .subscript v sl => do
    let s ← visitExpr s v
    visitExpr s sl
  | .tup elts =>
    if s.visiting_target then visitTargetElts s elts 0
    else if s.visiting_value then visitValueElts s elts 0
    else .ok s

/-- Target branch of `AssignmentVisitor.visit_Tuple`: for each element a
`None` slot is appended to `_attr_indexes`, `_index` is set to the
positional index, and the element is visited. -/
def visitTargetElts (s : AssignmentVisitorState) :
    List PyExpr → Nat → Except String AssignmentVisitorState
  | [], _ => .ok s
  | e :: rest, idx => do
    let s := { s with attr_indexes := s.attr_indexes ++ [none],
                      curIndex := some idx }
    let s ← visitExpr s e
    visitTargetElts s rest (idx + 1)

/-- Value branch of `AssignmentVisitor.visit_Tuple`: when the alignment
table is non-empty, `_index` is loaded from it and the element is
visited only when the slot is not `None`; otherwise every element is
visited with the current index. -/
def visitValueElts (s : AssignmentVisitorState) :
    List PyExpr → Nat → Except String AssignmentVisitorState
  | [], _ => .ok s
  | e :: rest, idx => do
    if s.attr_indexes.length > 0 then
      match s.attr_indexes.get? idx with
      | none => .error "IndexError: list index out of range"
      | some slot => do
        let s := { s with curIndex := slot }
        let s ← (match slot with
          | some _ => visitExpr s e
          | none => .ok s)
        visitValueElts s rest (idx + 1)
    else do
      let s ← visitExpr s e
      visitValueElts s rest (idx + 1)

end

/-- `AssignmentVisitor.visit_Assign` / `visit_AnnAssign` on a whole
statement. `visit_Assign` visits `targets[0]` under the target flag and
then the value under the value flag. `visit_AnnAssign` visits the
single target, stores the annotation's type string on the last recorded
attribute assignment (when one exists), then visits the value. -/
def visitStmt (s : AssignmentVisitorState) :
    StmtNode → Except String AssignmentVisitorState
  | .assign targets value => do
    let s := { s with visiting_target := true }
    let t0 ← match targets.head? with
      | some t => Except.ok t
      | none => Except.error "IndexError: list index out of range"
    let s ← visitExpr s t0
    let s := { s with visiting_target := false, visiting_value := true }
    let s ← visitExpr s value
    .ok { s with visiting_value := false }
  | .annassign target ann value => do
    let s := { s with visiting_target := true }
    let s ← visitExpr s target
    let s := { s with visiting_target := false }
    let ty ← typeVisit ann
    let s :=
      match s.attribute_assignments.getLast? with
      | none => s
      | some lastAA =>
        { s with attribute_assignments :=
            s.attribute_assignments.dropLast ++
              [{ lastAA with instance_attribute :=
                  { lastAA.instance_attribute with type_expr := ty } }] }
    let s := { s with visiting_value := true }
    let v ← match value with
      | some v => Except.ok v
      | none => Except.error "AttributeError: NoneType has no attribute"
    let s ← visitExpr s v
    .ok { s with visiting_value := false }

/-- Running a fresh `AssignmentVisitor` on one statement, as
`ConstructorVisitor.visit_Assign` / `visit_AnnAssign` do. -/
def runAssignmentVisitor (stmt : StmtNode) :
    Except String AssignmentVisitorState :=
  visitStmt {} stmt

end Py2Puml.Methods

namespace Py2Puml.Methods

/-- `py2puml/methods.py`: `Argument` — a constructor argument name and
its type expression string. -/
structure Argument where
  name : String
  type_expr : Option String := none
deriving DecidableEq, Repr

/-- Mutable state of `py2puml/methods.py` `ConstructorVisitor`: the
constructor name, the typed arguments collected from the signature, and
the `instance_attributes` dict keyed by attribute name. -/
structure ConstructorVisitorState where
  name : Option String := none
  arguments : List Argument := []
  instance_attributes : List (String × InstanceAttribute) := []
deriving DecidableEq, Repr

/-- `ConstructorVisitor.visit_arg`: the annotation (when present) is
rendered by `TypeVisitor`; every argument except `self` is recorded. -/
def ConstructorVisitorState.visit_arg (s : ConstructorVisitorState)
    (a : ArgNode) : Except String ConstructorVisitorState := do
  let ty ← match a.ann with
    | some annExpr => typeVisit annExpr
    | none => Except.ok none
  if a.arg == "self" then
    .ok s
  else
    .ok { s with arguments := s.arguments ++ [{ name := a.arg, type_expr := ty }] }

/-- The argument-type lookup of `ConstructorVisitor.visit_Assign`: the
first signature argument (in declaration order) whose name occurs among
the assignment's value variables supplies the type; otherwise `None`. -/
def lookupArgumentType (arguments : List Argument)
    (variable_names : List String) : Option String :=
  match arguments.find? (fun a => variable_names.contains a.name) with
  | some a => a.type_expr
  | none => none

/-- `ConstructorVisitor.visit_Assign`: a fresh `AssignmentVisitor` walks
the statement; each discovered attribute assignment is typed via the
constructor arguments and stored in the `instance_attributes` dict
(overwriting any earlier entry of the same name in place). -/
def ConstructorVisitorState.visit_Assign (s : ConstructorVisitorState)
    (targets : List PyExpr) (value : PyExpr) :
    Except String ConstructorVisitorState := do
  let av ← runAssignmentVisitor (.assign targets value)
  let step := fun (d : List (String × InstanceAttribute)) (aa : AttributeAssignment) =>
    let ia := { aa.instance_attribute with
                  type_expr := lookupArgumentType s.arguments aa.variable_names }
    dictInsert d ia.name ia
  .ok { s with instance_attributes :=
          av.attribute_assignments.foldl step s.instance_attributes }

/-- `ConstructorVisitor.visit_AnnAssign`: a fresh `AssignmentVisitor`
walks the statement; when it produced at least one attribute assignment,
the first one is typed from the annotation and stored in the dict. -/
def ConstructorVisitorState.visit_AnnAssign (s : ConstructorVisitorState)
    (target : PyExpr) (ann : PyExpr) (value : Option PyExpr) :
    Except String ConstructorVisitorState := do
  let av ← runAssignmentVisitor (.annassign target ann value)
  match av.attribute_assignments.head? with
  | none => .ok s
  | some aa0 => do
    let ty ← typeVisit ann
    let ia := { aa0.instance_attribute with type_expr := ty }
    .ok { s with instance_attributes := dictInsert s.instance_attributes ia.name ia }

/-- The argument loop reached by `generic_visit` on the constructor's
`arguments` node: `visit_arg` per argument, in order. -/
def ConstructorVisitorState.visitArgs (s : ConstructorVisitorState) :
    List ArgNode → Except String ConstructorVisitorState
  | [] => Except.ok s
  | a :: rest => do
    let s' ← ConstructorVisitorState.visit_arg s a
    ConstructorVisitorState.visitArgs s' rest

/-- Dispatch of one constructor-body statement. -/
def ConstructorVisitorState.visitStmt (s : ConstructorVisitorState) :
    StmtNode → Except String ConstructorVisitorState
  | .assign t v => ConstructorVisitorState.visit_Assign s t v
  | .annassign t a v => ConstructorVisitorState.visit_AnnAssign s t a v

/-- The body loop of `generic_visit` on the constructor. -/
def ConstructorVisitorState.visitStmts (s : ConstructorVisitorState) :
    List StmtNode → Except String ConstructorVisitorState
  | [] => .ok s
  | stmt :: rest => do
    let s' ← ConstructorVisitorState.visitStmt s stmt
    ConstructorVisitorState.visitStmts s' rest

/-- `ConstructorVisitor.visit_FunctionDef`: stores the name, then
`generic_visit` reaches the argument nodes (`visit_arg`) and the body
statements in order (`visit_Assign` / `visit_AnnAssign`); the decorator
and return-annotation children have no visitor methods on this class
and leave the state unchanged. -/
def ConstructorVisitorState.visit_FunctionDef (s : ConstructorVisitorState)
    (f : FunctionDefNode) : Except String ConstructorVisitorState := do
  let s := { s with name := some f.name }
  let s ← ConstructorVisitorState.visitArgs s f.args
  ConstructorVisitorState.visitStmts s f.body

/-- Running a fresh `ConstructorVisitor` on a constructor definition, as
`ClassVisitor.visit_FunctionDef` does. -/
def runConstructorVisitor (f : FunctionDefNode) :
    Except String ConstructorVisitorState :=
  ConstructorVisitorState.visit_FunctionDef {} f

/-- `py2puml/methods.py`: `Method` — name, ordered argument dict
(name to optional type string), decorator flags and return type. -/
structure Method where
  name : String
  arguments : List (String × Option String) := []
  is_static : Bool := false
  is_class : Bool := false
  is_getter : Bool := false
  return_type : Option String := none
deriving DecidableEq, Repr

/-- `DecoratorVisitor.decorator_type`: the dotted name assembled from
the visited elements. -/
def decorator_type (e : PyExpr) : String :=
  String.intercalate "." (collectDottedElements e)

/-- `MethodVisitor.visit_FunctionDef`: resolves the decorators (kept
when non-empty), derives the static/class/getter flags, collects the
signature variables (`SignatureVariablesCollector`, with `class_self_id`
the first argument unless `staticmethod` suppressed it), fills the
argument dict (the receiver maps to `None`; an annotated argument maps
to the annotation's bare name when it is an `ast.Name`, otherwise to
the `TypeVisitor` rendering), and renders the return annotation. -/
def MethodVisitor_visit_FunctionDef (f : FunctionDefNode) :
    Except String Method := do
  let decorators := (f.decorator_list.map decorator_type).filter (· ≠ "")
  let is_static := decorators.contains "staticmethod"
  let is_class := decorators.contains "classmethod"
  let is_getter := decorators.contains "property"
  let class_self_id : Option String :=
    if is_static then none else f.args.head?.map (·.arg)
  let datatypes ← f.args.foldlM (fun d a => do
    let dt ← match a.ann with
      | some e => typeVisit e
      | none => Except.ok none
    Except.ok (dictInsert d a.arg dt)) ([] : List (String × Option String))
  let args ← f.args.foldlM (fun args a => do
    let args := if some a.arg == class_self_id then dictInsert args a.arg none else args
    match a.ann with
    | some annExpr =>
      match annExpr with
      | .name nid => Except.ok (dictInsert args a.arg (some nid))
      | _ => Except.ok (dictInsert args a.arg ((datatypes.lookup a.arg).join))
    | none => Except.ok (dictInsert args a.arg none)) ([] : List (String × Option String))
  let ret ← match f.returns with
    | some r => typeVisit r
    | none => Except.ok none
  .ok { name := f.name, arguments := args, is_static := is_static,
        is_class := is_class, is_getter := is_getter, return_type := ret }

end Py2Puml.Methods

namespace Py2Puml.Classes

open Py2Puml.Methods

/-- An entry of `ClassVisitor.attributes`: either a `ClassAttribute` or
an `InstanceAttribute` from `py2puml/attribute.py`. -/
inductive ClassBodyAttribute : Type where
  | classAttribute (a : ClassAttribute)
  | instanceAttribute (a : InstanceAttribute)
deriving DecidableEq, Repr

/-- The name of a collected attribute. -/
def ClassBodyAttribute.name : ClassBodyAttribute → String
  | .classAttribute a => a.name
  | .instanceAttribute a => a.name

/-- Statements of a class body handled by `py2puml/classes.py`
`ClassVisitor`: plain assignments, annotated assignments and method
definitions. -/
inductive ClassStmtNode : Type where
  | assign (targets : List PyExpr) (value : PyExpr)
  | annassign (target : PyExpr) (ann : PyExpr) (value : Option PyExpr)
  | functiondef (f : FunctionDefNode)

/-- `ast.ClassDef`: name, base expressions, decorator expressions and
body statements. -/
structure ClassDefNode where
  name : String
  bases : List PyExpr := []
  decorator_list : List PyExpr := []
  body : List ClassStmtNode := []

/-- Mutable state of `py2puml/classes.py` `ClassVisitor`. -/
structure ClassVisitorState where
  class_name : Option String := none
  attributes : List ClassBodyAttribute := []
  methods : List Method := []
  parent_classes_pqn : List String := []
  decorators : List String := []
  is_dataclass : Bool := false
deriving DecidableEq, Repr

/-- `ClassVisitor.visit_Assign`: each target must be a bare name
(`target.id`, anything else raises an AttributeError); the attribute is
an `InstanceAttribute` under dataclass semantics and a `ClassAttribute`
otherwise, in both cases untyped. -/
def ClassVisitorState.visit_Assign (s : ClassVisitorState) :
    List PyExpr → Except String ClassVisitorState
  | [] => .ok s
  | t :: rest =>
    match t with
    | .name id =>
      let a : ClassBodyAttribute :=
        if s.is_dataclass then .instanceAttribute { name := id }
        else .classAttribute { name := id }
      ClassVisitorState.visit_Assign { s with attributes := s.attributes ++ [a] } rest
    | _ => .error "AttributeError: object has no attribute id"

/-- `ClassVisitor.visit_AnnAssign`: the annotation is rendered by
`TypeVisitor`; the single target must be a bare name. -/
def ClassVisitorState.visit_AnnAssign (s : ClassVisitorState)
    (target : PyExpr) (ann : PyExpr) : Except String ClassVisitorState := do
  let ty ← typeVisit ann
  match target with
  | .name id =>
    let a : ClassBodyAttribute :=
      if s.is_dataclass then .instanceAttribute { name := id, type_expr := ty }
      else .classAttribute { name := id, type_expr := ty }
    .ok { s with attributes := s.attributes ++ [a] }
  | _ => .error "AttributeError: object has no attribute id"

/-- `ClassVisitor.visit_FunctionDef`: a fresh `MethodVisitor` builds the
method; a getter (`property`-decorated) is recorded as an instance
attribute carrying the return type and is not added to the method list;
any other method is appended to the method list. For the method named
`__init__` a fresh `ConstructorVisitor` walks the same node and the
values of its `instance_attributes` dict are appended to the
attribute list. -/
def ClassVisitorState.visit_FunctionDef (s : ClassVisitorState)
    (f : FunctionDefNode) : Except String ClassVisitorState := do
  let method ← MethodVisitor_visit_FunctionDef f
  let s :=
    if method.is_getter then
      { s with attributes := s.attributes ++
          [.instanceAttribute { name := method.name, type_expr := method.return_type }] }
    else
      { s with methods := s.methods ++ [method] }
  if f.name == "__init__" then do
    let cv ← runConstructorVisitor f
    let ctorAttrs := cv.instance_attributes.map
      (fun p => ClassBodyAttribute.instanceAttribute p.2)
    .ok { s with attributes := s.attributes ++ ctorAttrs }
  else
    .ok s

/-- Dispatch of one class-body statement. -/
def ClassVisitorState.visitStmt (s : ClassVisitorState) :
    ClassStmtNode → Except String ClassVisitorState
  | .assign targets _ => ClassVisitorState.visit_Assign s targets
  | .annassign target ann _ => ClassVisitorState.visit_AnnAssign s target ann
  | .functiondef f => ClassVisitorState.visit_FunctionDef s f

/-- The class-body loop of `generic_visit`. -/
def ClassVisitorState.visitStmts (s : ClassVisitorState) :
    List ClassStmtNode → Except String ClassVisitorState
  | [] => .ok s
  | stmt :: rest => do
    let s' ← ClassVisitorState.visitStmt s stmt
    ClassVisitorState.visitStmts s' rest

/-- `ClassVisitor.visit_ClassDef`: stores the class name, collects the
base-class dotted names (`BaseClassVisitor`), resolves the decorators
(flipping `is_dataclass` on the literal name `dataclass`), then
`generic_visit` dispatches the body statements in order; the base and
decorator expressions have no further effect since `ClassVisitor`
defines no expression visitors. -/
def visit_ClassDef (node : ClassDefNode) : Except String ClassVisitorState :=
  let s : ClassVisitorState := { class_name := some node.name }
  let s := { s with parent_classes_pqn :=
      node.bases.map (fun b => String.intercalate "." (collectDottedElements b)) }
  let s := node.decorator_list.foldl (fun s d =>
    let dt := decorator_type d
    let s := { s with decorators := s.decorators ++ [dt] }
    if dt == "dataclass" then { s with is_dataclass := true } else s) s
  ClassVisitorState.visitStmts s node.body

end Py2Puml.Classes

namespace Py2Puml.Modules

/-- `py2puml/module.py`: `ImportStatement` — one imported object of a
`from <module_name> import <name> [as <alias>]` statement, with its
relative-ascent `level` and the `fully_qualified_name` that resolution
fills in later. -/
structure ImportStatement where
  module_name : String
  name : String
  alias' : Option String := none
  level : Nat := 0
  fully_qualified_name : Option String := none
deriving DecidableEq, Repr

/-- `ImportStatement.is_relative`. -/
def ImportStatement.is_relative (imp : ImportStatement) : Bool :=
  imp.level > 0

/-- The parent-link chain that `resolve_relative_import` walks: an
entity (module or package) with its `fully_qualified_name` and its
optional `parent_package`. -/
inductive HierNode : Type where
  | node (fully_qualified_name : String) (parent : Option HierNode)

/-- The entity's fully qualified name. -/
def HierNode.fully_qualified_name : HierNode → String
  | .node f _ => f

/-- The entity's `parent_package` back-reference. -/
def HierNode.parent_package : HierNode → Option HierNode
  | .node _ p => p

/-- The `while level > 0` loop of `ImportStatement.resolve_relative_import`:
each step demands a parent (raising when there is none) and moves up. -/
def HierNode.walkUp : HierNode → Nat → Except String HierNode
  | n, 0 => .ok n
  | n, l + 1 =>
    match n.parent_package with
    | none => .error "Could not resolve relative import: package has no parent."
    | some p => p.walkUp l

/-- Specification-side view of the parent chain: the fully qualified
names of the strict ancestors, nearest first. -/
def HierNode.ancestorChain : HierNode → List String
  | .node _ none => []
  | .node _ (some p) => p.fully_qualified_name :: p.ancestorChain

/-- `ImportStatement.resolve_relative_import`: raises on an absolute
one, walks up exactly `level` parent links starting from the module
holding the import, and joins the arrived-at entity's fully qualified
name with `module_name`. -/
def resolve_relative_import (module : HierNode) (imp : ImportStatement) :
    Except String ImportStatement :=
  if imp.level == 0 then
    .error "ValueError: only relative imports are supported"
  else do
    let parent ← module.walkUp imp.level
    let fqn := parent.fully_qualified_name ++ "." ++ imp.module_name
    .ok { imp with fully_qualified_name := some fqn }

/-- The per-module loop of `PythonPackage.resolve_relative_imports`:
relative imports are resolved (an exception propagates, leaving the
failing import and all following ones untouched), absolute imports get
`fully_qualified_name := module_name` directly. The returned pair is
the final state of the import list and the propagated error, if any. -/
def resolve_module_imports (module : HierNode) :
    List ImportStatement → List ImportStatement × Option String
  | [] => ([], none)
  | imp :: rest =>
    if imp.is_relative then
      match resolve_relative_import module imp with
      | .ok imp' =>
        let (r, err) := resolve_module_imports module rest
        (imp' :: r, err)
      | .error e => (imp :: rest, some e)
    else
      let imp' := { imp with fully_qualified_name := some imp.module_name }
      let (r, err) := resolve_module_imports module rest
      (imp' :: r, err)

/-- The module loop of `PythonPackage.resolve_relative_imports` over the
modules of a package (subpackage recursion linearizes to the same
sequential processing): an exception raised inside one module's import
loop propagates and aborts the processing of all later modules. -/
def resolve_relative_imports_pass :
    List (HierNode × List ImportStatement) →
    List (HierNode × List ImportStatement) × Option String
  | [] => ([], none)
  | (m, imps) :: rest =>
    let (imps', err) := resolve_module_imports m imps
    match err with
    | some e => ((m, imps') :: rest, some e)
    | none =>
      let (r, err') := resolve_relative_imports_pass rest
      ((m, imps') :: r, err')

/-- `py2puml/module.py`: the parts of `PythonModule` that class-name
resolution consults — its fully qualified name, the names of its own
classes (`__contains__`) and its import dict keyed by alias-or-name. -/
structure ModuleNS where
  fully_qualified_name : String
  class_names : List String := []
  import_statements : List (String × ImportStatement) := []
deriving DecidableEq, Repr

/-- `PythonModule.resolve_class_name`: a class of that simple name in
the module itself wins; otherwise the import dict is consulted, joining
the import's resolved module name with the imported object name
(an unresolved import renders its `None` as the literal text "None",
as the f-string does); otherwise `None`. -/
def resolve_class_name (m : ModuleNS) (class_name : String) : Option String :=
  if m.class_names.contains class_name then
    some (m.fully_qualified_name ++ "." ++ class_name)
  else
    match m.import_statements.lookup class_name with
    | some imp => some (pyOptStr imp.fully_qualified_name ++ "." ++ imp.name)
    | none => none

/-- `PythonModule.resolve_class_pqn`: the first dotted token is looked
up in the import dict; a missing (falsy) resolved module name raises a
ValueError; when the import was aliased, the import's original name is
substituted for the first token before the fully qualified name is
reassembled. A first token with no matching import yields `None`. -/
def resolve_class_pqn (m : ModuleNS) (class_pqn : String) :
    Except String (Option String) :=
  let tokens := splitOnDot class_pqn
  let t0 := tokens.headD ""
  match m.import_statements.lookup t0 with
  | some imp =>
    match imp.fully_qualified_name with
    | none => .error "ValueError: fully qualified name missing, run resolve_relative_import first"
    | some fqn =>
      if fqn == "" then
        .error "ValueError: fully qualified name missing, run resolve_relative_import first"
      else
        let class_pqn' :=
          if imp.alias'.isSome then
            String.intercalate "." (imp.name :: tokens.tail)
          else class_pqn
        .ok (some (fqn ++ "." ++ class_pqn'))
  | none => .ok none

/-- `py2puml/classes.py`: the parts of `PythonClass` that inheritance
resolution reads and writes — its name, fully qualified name, and the
`base_classes` map from partially qualified base name to the resolved
base class (represented here by the base's unique fully qualified
name). -/
structure PythonClassRec where
  name : String
  fully_qualified_name : String
  base_classes : List (String × Option String) := []
deriving DecidableEq, Repr

/-- `py2puml/package.py`: the package tree as inheritance resolution
sees it — each module with its classes, plus the subpackages. -/
inductive PythonPackageT : Type where
  | mk (modules : List (ModuleNS × List PythonClassRec))
       (subpackages : List PythonPackageT)

mutual

/-- `PythonPackage.find_all_classes`: the classes of the package's own
modules first, then recursively those of the subpackages; each class is
paired with its owning module (the `module` back-reference). -/
def find_all_classes : PythonPackageT → List (ModuleNS × PythonClassRec)
  | .mk modules subpackages =>
    modules.flatMap (fun p => p.2.map (fun c => (p.1, c))) ++
      find_all_classes_list subpackages

/-- `find_all_classes` over a subpackage list. -/
def find_all_classes_list : List PythonPackageT → List (ModuleNS × PythonClassRec)
  | [] => []
  | p :: rest => find_all_classes p ++ find_all_classes_list rest

end

/-- The body of the base-class loop shared by both
`resolve_class_inheritance` implementations: a dotted partially
qualified name goes through `resolve_class_pqn` (which may raise), a
plain name through `resolve_class_name`; the result is kept only when
it names a class of the registry. -/
def resolveBaseEntry (registry : List String) (m : ModuleNS) (pqn : String) :
    Except String (Option String) :=
  match (if containsDot pqn then resolve_class_pqn m pqn
         else Except.ok (resolve_class_name m pqn)) with
  | .error e => .error e
  | .ok (some fqn) => .ok (if registry.contains fqn then some fqn else none)
  | .ok none => .ok none

/-- The base-class loop shared by both `resolve_class_inheritance`
implementations: each map entry is paired with the outcome of its
lookup. -/
def resolveBaseEntries (registry : List String) (m : ModuleNS) :
    List (String × Option String) →
    Except String (List (String × Option String × Option String))
  | [] => .ok []
  | e :: rest => do
    let b ← resolveBaseEntry registry m e.1
    let rest' ← resolveBaseEntries registry m rest
    .ok ((e.1, e.2, b) :: rest')

/-- Per-class step of `py2puml/package.py`
`PythonPackage.resolve_class_inheritance`: entries whose base class was
found are bound to it; the others are collected in `remove_keys` and
deleted from the map after the loop. -/
def resolve_class_bases (registry : List String) (m : ModuleNS)
    (c : PythonClassRec) : Except String PythonClassRec := do
  if c.base_classes.isEmpty then
    .ok c
  else do
    let resolved ← resolveBaseEntries registry m c.base_classes
    let kept := resolved.filterMap (fun t =>
      match t.2.2 with
      | some fqn => some (t.1, some fqn)
      | none => none)
    .ok { c with base_classes := kept }

/-- Per-class step of `py2puml/domain/umlclass.py`
`PythonPackage.resolve_class_inheritance`: entries whose base class was
found are bound to it; all other entries are left untouched (there is
no `remove_keys` deletion in this implementation). -/
def resolve_class_bases_keep (registry : List String) (m : ModuleNS)
    (c : PythonClassRec) : Except String PythonClassRec := do
  if c.base_classes.isEmpty then
    .ok c
  else do
    let resolved ← resolveBaseEntries registry m c.base_classes
    let updated := resolved.map (fun t =>
      match t.2.2 with
      | some fqn => (t.1, some fqn)
      | none => (t.1, t.2.1))
    .ok { c with base_classes := updated }

/-- The class loop of `resolve_class_inheritance` restricted to the
classes of one module. -/
def resolveClasses (registry : List String)
    (step : List String → ModuleNS → PythonClassRec → Except String PythonClassRec)
    (m : ModuleNS) :
    List PythonClassRec → Except String (List PythonClassRec)
  | [] => .ok []
  | c :: rest => do
    let c' ← step registry m c
    let rest' ← resolveClasses registry step m rest
    pure (c' :: rest')

/-- `resolveClasses` over the modules of one package. -/
def resolveModules (registry : List String)
    (step : List String → ModuleNS → PythonClassRec → Except String PythonClassRec) :
    List (ModuleNS × List PythonClassRec) →
    Except String (List (ModuleNS × List PythonClassRec))
  | [] => .ok []
  | p :: rest => do
    let cs' ← resolveClasses registry step p.1 p.2
    let rest' ← resolveModules registry step rest
    pure ((p.1, cs') :: rest')

mutual

/-- The in-place class mutation of `resolve_class_inheritance`, mapped
over the tree with a fixed registry. -/
def resolveTree (registry : List String)
    (step : List String → ModuleNS → PythonClassRec → Except String PythonClassRec) :
    PythonPackageT → Except String PythonPackageT
  | .mk modules subpackages => do
    let modules' ← resolveModules registry step modules
    let subpackages' ← resolveTreeList registry step subpackages
    pure (.mk modules' subpackages')

/-- `resolveTree` over a subpackage list. -/
def resolveTreeList (registry : List String)
    (step : List String → ModuleNS → PythonClassRec → Except String PythonClassRec) :
    List PythonPackageT → Except String (List PythonPackageT)
  | [] => .ok []
  | p :: rest => do
    let p' ← resolveTree registry step p
    let rest' ← resolveTreeList registry step rest
    pure (p' :: rest')

end

/-- `py2puml/package.py` `PythonPackage.resolve_class_inheritance`: the
registry of classes by fully qualified name is built from
`find_all_classes`, then every class's base map is resolved with the
removal semantics. -/
def resolve_class_inheritance (pkg : PythonPackageT) :
    Except String PythonPackageT :=
  let registry := (find_all_classes pkg).map (fun p => p.2.fully_qualified_name)
  resolveTree registry resolve_class_bases pkg

/-- `py2puml/domain/umlclass.py` `PythonPackage.resolve_class_inheritance`
(the implementation invoked by the `py2puml` entry point): same lookup,
but unresolved entries are retained with their old (null) value. -/
def resolve_class_inheritance_keep (pkg : PythonPackageT) :
    Except String PythonPackageT :=
  let registry := (find_all_classes pkg).map (fun p => p.2.fully_qualified_name)
  resolveTree registry resolve_class_bases_keep pkg

end Py2Puml.Modules

namespace Py2Puml.Resolving

/-- `py2puml/parsing/moduleresolver.py`: `NamespacedType` — the
module-prefixed type name and the short type name, either of which may
be missing. -/
structure NamespacedType where
  full_namespace : Option String
  type_name : Option String
deriving DecidableEq, Repr

/-- `EMPTY_NAMESPACED_TYPE = NamespacedType(None, None)`. -/
def EMPTY_NAMESPACED_TYPE : NamespacedType := ⟨none, none⟩

/-- The runtime objects the reflective resolver inspects, reduced to
what the code reads from them: a `module` carries its dunder name, its
member dict in insertion order (`vars`) and its builtins dict; a
`pyclass` carries its module name and class name; a `plain` object
carries its repr text, an optional module attribute, an optional dunder
name and an optional `_name` (the generic-alias fallback). Attribute
lookup (`getattr`) is modelled on module objects; the namespace walks
performed by the code descend through module members. -/
inductive PyObj : Type where
  | module (modName : String) (members : List (String × PyObj))
      (builtins : List (String × PyObj))
  | pyclass (moduleName : String) (className : String)
  | plain (reprStr : String) (moduleName : Option String)
      (dunderName : Option String) (underName : Option String)

/-- `getattr(searched_module, namespace, None)` on the modelled
objects. -/
def getattrOpt : PyObj → String → Option PyObj
  | .module _ members _, ns => members.lookup ns
  | _, _ => none

/-- `search_in_module_or_builtins`: a missing module yields nothing; a
member of the module wins; otherwise the module's builtins are
consulted (only module objects carry `__builtins__`). -/
def search_in_module_or_builtins (searched_module : Option PyObj)
    (ns : String) : Option PyObj :=
  match searched_module with
  | none => none
  | some m =>
    match getattrOpt m ns with
    | some found => some found
    | none =>
      match m with
      | .module _ _ builtins => builtins.lookup ns
      | _ => none

/-- The short name of a found leaf object:
`getattr(leaf_type, '__name__', getattr(leaf_type, '_name', None))`. -/
def shortNameOf : PyObj → Option String
  | .module n _ _ => some n
  | .pyclass _ c => some c
  | .plain _ _ dn un => dn.orElse (fun _ => un)

/-- The `__module__` attribute of a found leaf object; Python modules
themselves do not carry one, so reading it there raises. -/
def moduleAttrOf : PyObj → Option String
  | .module _ _ _ => none
  | .pyclass m _ => some m
  | .plain _ m _ _ => m

/-- `search_in_module`: the dotted path is folded through
`search_in_module_or_builtins` starting from the module object; a
missing leaf yields `EMPTY_NAMESPACED_TYPE`, a found leaf yields its
module-prefixed name and short name (reading `__module__` on an object
without one raises an AttributeError). -/
def search_in_module (namespaces : List String) (module : PyObj) :
    Except String NamespacedType :=
  match namespaces.foldl search_in_module_or_builtins (some module) with
  | none => .ok EMPTY_NAMESPACED_TYPE
  | some leaf =>
    let short := shortNameOf leaf
    match moduleAttrOf leaf with
    | none => .error "AttributeError: object has no attribute __module__"
    | some m => .ok ⟨some (m ++ "." ++ pyOptStr short), short⟩

/-- The `string_repr` helper of `resolve_full_namespace_type`: a class
renders as its module-prefixed name, anything else as its f-string
text (a module's repr is its angle-bracketed description, never a
dotted path). -/
def string_repr : PyObj → String
  | .pyclass m c => m ++ "." ++ c
  | .module n _ _ => "<module " ++ n ++ ">"
  | .plain r _ _ _ => r

/-- The `vars(self.module)` dict of the resolver's module. -/
def varsOf : PyObj → List (String × PyObj)
  | .module _ members _ => members
  | _ => []

/-- `ModuleResolver.resolve_full_namespace_type`: `None` yields the
empty pair; otherwise the module members are scanned in order for one
whose `string_repr` equals the dotted path (yielding that repr and the
member's variable name); failing that, `search_in_module` walks the
dotted path segment by segment. -/
def resolve_full_namespace_type (module : PyObj)
    (dotted_path : Option String) : Except String NamespacedType :=
  match dotted_path with
  | none => .ok EMPTY_NAMESPACED_TYPE
  | some p =>
    match (varsOf module).find? (fun kv => string_repr kv.2 == p) with
    | some kv => .ok ⟨some (string_repr kv.2), some kv.1⟩
    | none => search_in_module (splitOnDot p) module

/-- Modelled from the spec: the repository file
`py2puml/parsing/compoundtypesplitter.py` is absent from the provided
sources; per the specification the structural characters a compound
type expression is tokenized around are the fixed set of the opening
bracket, the closing bracket and the comma. -/
def SPLITTING_CHARACTERS : List String := ["[", "]", ","]

/-- The token loop of `ModuleResolver.shorten_compound_type_annotation`
over the splitter's token list: a structural character is copied (a
space follows each comma); any other token is resolved —
`resolve_full_namespace_type` may itself raise — and must yield a short
name, otherwise a ValueError is raised; the resolved full names
accumulate in `associated_types` in token order. -/
def shortenParts (module : PyObj) :
    List String → Except String (List String × List (Option String))
  | [] => .ok ([], [])
  | part :: rest =>
    if SPLITTING_CHARACTERS.contains part then do
      let (short_parts, assoc) ← shortenParts module rest
      .ok ((if part == "," then [part, " "] else [part]) ++ short_parts, assoc)
    else do
      let nt ← resolve_full_namespace_type module (some part)
      match nt.type_name with
      | none =>
        .error ("Could not resolve type " ++ part ++
          " in module: it needs to be imported explicitely.")
      | some short => do
        let (short_parts, assoc) ← shortenParts module rest
        .ok (short :: short_parts, nt.full_namespace :: assoc)

/-- `ModuleResolver.shorten_compound_type_annotation`, operating on the
token list that `CompoundTypeSplitter(type_annotation, ...).get_parts()`
produces (the splitter's source file is absent from the provided
sources, so its output sequence of atomic dotted names and structural
characters is the `parts` argument here): the shortened display string
is the concatenation of the per-token short parts, alongside the
fully-qualified types involved. -/
def shorten_compound_type_annotation (module : PyObj) (parts : List String) :
    Except String (String × List (Option String)) := do
  let (short_parts, assoc) ← shortenParts module parts
  .ok (String.join short_parts, assoc)

end Py2Puml.Resolving

namespace Py2Puml.AstVisitors

open Py2Puml.Resolving

/-- Modelled from the spec: `py2puml/domain/umlrelation.py` is absent
from the provided sources; the specification's RelationshipEntity has
kind INHERITANCE or COMPOSITION. -/
inductive RelType : Type where
  | COMPOSITION
  | INHERITANCE
deriving DecidableEq, Repr

/-- Modelled from the spec: `py2puml/domain/umlrelation.py` is absent
from the provided sources; the specification's RelationshipEntity is a
record of a source fully qualified name, a target fully qualified name
and a kind. -/
structure UmlRelation where
  source_fqn : String
  target_fqn : String
  rel_type : RelType
deriving DecidableEq, Repr

/-- `py2puml/domain/umlclass.py`: `UmlAttribute` — name, type display
string and static flag. -/
structure UmlAttribute where
  name : String
  type : Option String
  static : Bool
deriving DecidableEq, Repr

/-- `py2puml/domain/umlclass.py`: `InstanceAttribute` — name and
optional type display string (field `_type`). -/
structure DomainInstanceAttribute where
  name : String
  _type : Option String := none
deriving DecidableEq, Repr

/-- `py2puml/parsing/astvisitors.py`: the `Variable` named tuple — an
identifier together with the annotation AST node it was declared
with. -/
structure Variable where
  id : String
  type_expr : Option PyExpr := none

mutual

/-- `py2puml/parsing/astvisitors.py`: the astvisitors `TypeVisitor`,
which differs from the methods.py one in that it has no
`visit_Attribute` method: an attribute node falls through
`generic_visit` and yields `None`. -/
def typeVisitA : PyExpr → Except String (Option String)
  | .name id => .ok (some id)
  | .attr _ _ => .ok none
  | .constant v => .ok (some v)
  | .binop _ _ => .ok none
  | .tup _ => .ok none
  | .subscript v slice => do
    let datatypes ← match slice with
      | .tup elts => typeVisitAList elts
      | e => do
        let d ← typeVisitA e
        pure [d]
    let strs ← datatypes.mapM (fun d => match d with
      | some s => Except.ok s
      | none => Except.error "TypeError: sequence item: expected str instance")
    match v with
    | .name vid => .ok (some (vid ++ "[" ++ String.intercalate ", " strs ++ "]"))
    | _ => .error "AttributeError: object has no attribute id"

/-- `typeVisitA` applied to each child of a subscript slice. -/
def typeVisitAList : List PyExpr → Except String (List (Option String))
  | [] => .ok []
  | e :: rest => do
    let d ← typeVisitA e
    let ds ← typeVisitAList rest
    .ok (d :: ds)

end

mutual

/-- `AssignedVariablesCollector` run over one assignment target:
returns `(variables, self_attributes)` in traversal order. A bare name
different from the receiver identifier is a new variable; an attribute
access whose value is the bare receiver name is a receiver-attribute
write; a subscript target is skipped without recursion
(`visit_Subscript` is `pass`); other nodes recurse through
`generic_visit`. -/
def collectAssigned (class_self_id : Option String) (ann : Option PyExpr) :
    PyExpr → List Variable × List Variable
  | .name id =>
    if some id == class_self_id then ([], []) else ([{ id := id, type_expr := ann }], [])
  | .attr v a =>
    match v with
    | .name vid =>
      if some vid == class_self_id then ([], [{ id := a, type_expr := ann }])
      else ([], [])
    | _ => ([], [])
  | .subscript _ _ => ([], [])
  | .constant _ => ([], [])
  | .binop l r =>
    let cl := collectAssigned class_self_id ann l
    let cr := collectAssigned class_self_id ann r
    (cl.1 ++ cr.1, cl.2 ++ cr.2)
  | .tup elts => collectAssignedList class_self_id ann elts

/-- `collectAssigned` over the elements of a tuple target. -/
def collectAssignedList (class_self_id : Option String) (ann : Option PyExpr) :
    List PyExpr → List Variable × List Variable
  | [] => ([], [])
  | e :: rest =>
    let ce := collectAssigned class_self_id ann e
    let cr := collectAssignedList class_self_id ann rest
    (ce.1 ++ cr.1, ce.2 ++ cr.2)

end

mutual

/-- The model of `ast.get_source_segment` on the annotation shapes the
constructor visitor reads back: a canonical source rendering of dotted
names, subscripts, tuples and literals; unavailable (as the Python
helper's `None`) for shapes without a canonical rendering. -/
def pySourceOf : PyExpr → Option String
  | .name id => some id
  | .attr v a => (pySourceOf v).map (fun s => s ++ "." ++ a)
  | .constant v => some v
  | .binop _ _ => none
  | .tup elts => (pySourceOfList elts).map (String.intercalate ", ")
  | .subscript v sl =>
    match pySourceOf v, pySourceOf sl with
    | some vs, some ss => some (vs ++ "[" ++ ss ++ "]")
    | _, _ => none

/-- `pySourceOf` over tuple elements. -/
def pySourceOfList : List PyExpr → Option (List String)
  | [] => some []
  | e :: rest =>
    match pySourceOf e, pySourceOfList rest with
    | some s, some ss => some (s :: ss)
    | _, _ => none

end

/-- `ConstructorVisitor.derive_type_annotation_details`: `None` yields
no type and no definitions; a bare name resolves directly; a dotted
name resolves its source segment; a subscript feeds its source segment
through the compound-type splitter (whose source file is absent from
the provided sources — its tokenization is the `splitParts` parameter)
and `shorten_compound_type_annotation`; anything else yields no type
and no definitions. -/
def derive_type_annotation_details (module : PyObj)
    (splitParts : String → List String) :
    Option PyExpr → Except String (Option String × List (Option String))
  | none => .ok (none, [])
  | some (.name id) => do
    let nt ← resolve_full_namespace_type module (some id)
    .ok (nt.type_name, [nt.full_namespace])
  | some (.attr v a) => do
    let nt ← resolve_full_namespace_type module (pySourceOf (.attr v a))
    .ok (nt.type_name, [nt.full_namespace])
  | some (.subscript v sl) =>
    match pySourceOf (.subscript v sl) with
    | none => .error "TypeError: expected string or bytes-like object"
    | some seg => do
      let res ← shorten_compound_type_annotation module (splitParts seg)
      .ok (some res.1, res.2)
  | some (.constant _) => .ok (none, [])
  | some (.binop _ _) => .ok (none, [])
  | some (.tup _) => .ok (none, [])

/-- The dict comprehension inside `ConstructorVisitor.extend_relations`:
a `None` target raises (`startswith` on `None`); a target is kept when
it starts with the root fully qualified name and is not yet registered
in the relationship dict. -/
def buildCandidates (class_fqn root_fqn : String)
    (rels : List (String × UmlRelation)) (acc : List (String × UmlRelation)) :
    List (Option String) → Except String (List (String × UmlRelation))
  | [] => .ok acc
  | none :: _ => .error "AttributeError: NoneType has no attribute startswith"
  | some t :: rest =>
    let acc :=
      if pyStartsWith t root_fqn && (rels.lookup t).isNone then
        dictInsert acc t { source_fqn := class_fqn, target_fqn := t,
                           rel_type := RelType.COMPOSITION }
      else acc
    buildCandidates class_fqn root_fqn rels acc rest

/-- `ConstructorVisitor.extend_relations`: the candidate dict built by
the comprehension is merged into `uml_relations_by_target_fqn` with
`dict.update`. -/
def extend_relations (class_fqn root_fqn : String)
    (rels : List (String × UmlRelation)) (target_fqns : List (Option String)) :
    Except String (List (String × UmlRelation)) := do
  let newDict ← buildCandidates class_fqn root_fqn rels [] target_fqns
  .ok (newDict.foldl (fun d p => dictInsert d p.1 p.2) rels)

/-- Mutable state of `py2puml/parsing/astvisitors.py`
`ConstructorVisitor`: the receiver identifier from the signature, the
variable namespace (signature arguments first, then variables bound in
the body), the recorded attributes and the composition-relationship
dict keyed by target fully qualified name. -/
structure ConstructorVisitorState where
  class_self_id : Option String := none
  variables_namespace : List Variable := []
  uml_attributes : List UmlAttribute := []
  instance_attributes : List DomainInstanceAttribute := []
  uml_relations_by_target_fqn : List (String × UmlRelation) := []

/-- `ConstructorVisitor.get_from_namespace`: the variable namespace is
searched anti-chronologically, so the most recently bound variable of
that name wins. -/
def get_from_namespace (s : ConstructorVisitorState) (variable_id : String) :
    Option Variable :=
  s.variables_namespace.reverse.find? (fun v => v.id == variable_id)

/-- The `for variable in variables_collector.self_attributes` loop of
`ConstructorVisitor.visit_Assign`'s fallback branch (and, with the
derivation hoisted, of `visit_AnnAssign`): each receiver attribute is
recorded with the type derived from the annotation it was collected
with, and the composition relationships are extended. -/
def recordSelfAttrsDeriving (module : PyObj)
    (splitParts : String → List String) (class_fqn root_fqn : String)
    (s : ConstructorVisitorState) :
    List Variable → Except String ConstructorVisitorState
  | [] => .ok s
  | v :: rest => do
    let derived ← derive_type_annotation_details module splitParts v.type_expr
    let ua : UmlAttribute := { name := v.id, type := derived.1, static := false }
    let ia : DomainInstanceAttribute := { name := v.id, _type := derived.1 }
    let s := { s with
      uml_attributes := s.uml_attributes ++ [ua],
      instance_attributes := s.instance_attributes ++ [ia] }
    let rels ← extend_relations class_fqn root_fqn
      s.uml_relations_by_target_fqn derived.2
    recordSelfAttrsDeriving module splitParts class_fqn root_fqn
      { s with uml_relations_by_target_fqn := rels } rest

/-- `ConstructorVisitor.visit_AnnAssign`: the target is classified with
the annotation attached, the annotation's details are derived once, and
every receiver attribute (at most one) is recorded with them; newly
bound variables then extend the namespace. -/
def visit_AnnAssign (module : PyObj) (splitParts : String → List String)
    (class_fqn root_fqn : String) (s : ConstructorVisitorState)
    (target : PyExpr) (ann : PyExpr) :
    Except String ConstructorVisitorState := do
  let collected := collectAssigned s.class_self_id (some ann) target
  let derived ← derive_type_annotation_details module splitParts (some ann)
  let s ← recordAnnAttrs derived.1 derived.2 s collected.2
  .ok { s with variables_namespace := s.variables_namespace ++ collected.1 }
where
  /-- The receiver-attribute loop with the already-derived details. -/
  recordAnnAttrs (short_type : Option String) (fulls : List (Option String))
      (s : ConstructorVisitorState) :
      List Variable → Except String ConstructorVisitorState
    | [] => .ok s
    | v :: rest => do
      let ua : UmlAttribute := { name := v.id, type := short_type, static := false }
      let ia : DomainInstanceAttribute := { name := v.id, _type := short_type }
      let s := { s with
        uml_attributes := s.uml_attributes ++ [ua],
        instance_attributes := s.instance_attributes ++ [ia] }
      let rels ← extend_relations class_fqn root_fqn
        s.uml_relations_by_target_fqn fulls
      recordAnnAttrs short_type fulls
        { s with uml_relations_by_target_fqn := rels } rest

/-- `ConstructorVisitor.visit_Assign`: for each assignment target, the
target is classified (with no annotation); when exactly one receiver
attribute was collected and the assigned value is a bare name, the
variable namespace is consulted — a hit records the attribute with the
variable's annotation details, a miss records nothing; in every other
case each collected receiver attribute is recorded with no annotation;
finally the newly bound variables extend the namespace. -/
def visitAssignTarget (module : PyObj) (splitParts : String → List String)
    (class_fqn root_fqn : String) (value : PyExpr)
    (s : ConstructorVisitorState) (assigned_target : PyExpr) :
    Except String ConstructorVisitorState := do
    let collected := collectAssigned s.class_self_id none assigned_target
    let s' ←
      match value with
      | .name vid =>
        if collected.2.length == 1 then
          match get_from_namespace s vid with
          | some assigned_variable => do
            let derived ← derive_type_annotation_details module splitParts
              assigned_variable.type_expr
            let attr0 := collected.2.headD { id := "" }
            let ua : UmlAttribute :=
              { name := attr0.id, type := derived.1, static := false }
            let ia : DomainInstanceAttribute :=
              { name := attr0.id, _type := derived.1 }
            let s := { s with
              uml_attributes := s.uml_attributes ++ [ua],
              instance_attributes := s.instance_attributes ++ [ia] }
            let rels ← extend_relations class_fqn root_fqn
              s.uml_relations_by_target_fqn derived.2
            pure { s with uml_relations_by_target_fqn := rels }
          | none => pure s
        else
          recordSelfAttrsDeriving module splitParts class_fqn root_fqn s collected.2
      | _ =>
        if collected.2.length == 1 then
          recordSelfAttrsDeriving module splitParts class_fqn root_fqn s collected.2
        else
          recordSelfAttrsDeriving module splitParts class_fqn root_fqn s collected.2
    .ok { s' with variables_namespace := s'.variables_namespace ++ collected.1 }

/-- The `for assigned_target in node.targets` loop of
`ConstructorVisitor.visit_Assign`. -/
def visitAssignTargets (module : PyObj) (splitParts : String → List String)
    (class_fqn root_fqn : String) (value : PyExpr)
    (s : ConstructorVisitorState) :
    List PyExpr → Except String ConstructorVisitorState
  | [] => .ok s
  | assigned_target :: rest => do
    let s' ← visitAssignTarget module splitParts class_fqn root_fqn value s
      assigned_target
    visitAssignTargets module splitParts class_fqn root_fqn value s' rest

/-- `SignatureVariablesCollector.visit_arg` renders each annotation
with the astvisitors `TypeVisitor` (the rendering is discarded by the
constructor visitor, but an exception it raises propagates). -/
def renderSigAnns : List ArgNode → Except String Unit
  | [] => .ok ()
  | a :: rest => do
    let _ ← match a.ann with
      | some e => typeVisitA e
      | none => Except.ok none
    renderSigAnns rest

/-- Dispatch of one constructor-body statement for the astvisitors
`ConstructorVisitor`. -/
def visitStmtA (module : PyObj) (splitParts : String → List String)
    (class_fqn root_fqn : String) (s : ConstructorVisitorState) :
    StmtNode → Except String ConstructorVisitorState
  | .assign targets value =>
    visitAssignTargets module splitParts class_fqn root_fqn value s targets
  | .annassign target ann _ =>
    visit_AnnAssign module splitParts class_fqn root_fqn s target ann

/-- The body loop of `generic_visit` on the constructor node. -/
def visitStmtsA (module : PyObj) (splitParts : String → List String)
    (class_fqn root_fqn : String) (s : ConstructorVisitorState) :
    List StmtNode → Except String ConstructorVisitorState
  | [] => .ok s
  | stmt :: rest => do
    let s' ← visitStmtA module splitParts class_fqn root_fqn s stmt
    visitStmtsA module splitParts class_fqn root_fqn s' rest

/-- `ConstructorVisitor.visit_FunctionDef`: on the method named
`__init__` the signature collector sets the receiver identifier (the
first argument) and seeds the variable namespace with all signature
arguments and their annotation nodes; then `generic_visit` dispatches
the body statements. -/
def visit_FunctionDefA (module : PyObj) (splitParts : String → List String)
    (class_fqn root_fqn : String) (f : FunctionDefNode) :
    Except String ConstructorVisitorState := do
  let s : ConstructorVisitorState ←
    if f.name == "__init__" then do
      let _ ← renderSigAnns f.args
      pure { class_self_id := f.args.head?.map (fun a => a.arg),
             variables_namespace :=
               f.args.map (fun a => { id := a.arg, type_expr := a.ann }) }
    else
      pure {}
  visitStmtsA module splitParts class_fqn root_fqn s f.body

end Py2Puml.AstVisitors

namespace Py2Puml.AstVisitors

/-- A sequence of `extend_relations` registrations on one constructor
analysis, starting from the empty relationship dict; a raised exception
leaves the dict unchanged (the comprehension fails before
`dict.update` runs). -/
def runExtendCalls (class_fqn root_fqn : String)
    (calls : List (List (Option String))) : List (String × UmlRelation) :=
  calls.foldl (fun rels call =>
    match extend_relations class_fqn root_fqn rels call with
    | .ok rels' => rels'
    | .error _ => rels) []

end Py2Puml.AstVisitors

namespace Py2Puml.Fixtures

open Py2Puml.Methods Py2Puml.Classes Py2Puml.Modules Py2Puml.Resolving
open Py2Puml.AstVisitors

/-- The statement `self.x, other.z, self.y = xx, 3, yy + 1`. -/
def mixedTupleAssign : StmtNode :=
  .assign
    [PyExpr.tup [.attr (.name "self") "x", .attr (.name "other") "z",
                 .attr (.name "self") "y"]]
    (.tup [.name "xx", .constant "3", .binop (.name "yy") (.constant "1")])

/-- The module `pkg.branch` declaring the classes `Branch` and
`OakBranch`, with no imports. -/
def branchModule : ModuleNS :=
  { fully_qualified_name := "pkg.branch", class_names := ["Branch", "OakBranch"] }

/-- The class `Branch` of `pkg.branch`. -/
def branchClass : PythonClassRec :=
  { name := "Branch", fully_qualified_name := "pkg.branch.Branch" }

/-- The class `OakBranch(Branch)` of `pkg.branch`, its base map still
unresolved. -/
def oakBranchClass : PythonClassRec :=
  ⟨"OakBranch", "pkg.branch.OakBranch", [("Branch", none)]⟩

/-- The package tree holding only the module `pkg.branch`. -/
def branchPackage : PythonPackageT :=
  .mk [(branchModule, [branchClass, oakBranchClass])] []

/-- A class `C` of `pkg.branch` whose declared base `Unknown` matches no
class of the tree. -/
def danglingBaseClass : PythonClassRec :=
  ⟨"C", "pkg.branch.C", [("Unknown", none)]⟩

/-- The package tree holding only `pkg.branch` with the dangling-base
class. -/
def danglingPackage : PythonPackageT :=
  .mk [(branchModule, [danglingBaseClass])] []

/-- The root package `root`. -/
def rootNode : HierNode := .node "root" none

/-- The package `root.x`. -/
def rootXNode : HierNode := .node "root.x" (some rootNode)

/-- The module `root.x.y`. -/
def rootXYNode : HierNode := .node "root.x.y" (some rootXNode)

/-- The import `from ..a.b import C` (two levels of relative ascent). -/
def importDotDotAB : ImportStatement :=
  { module_name := "a.b", name := "C", level := 2 }

/-- A relative import whose level exceeds every parent chain of the
`root.x.y` fixture. -/
def importTooDeep : ImportStatement :=
  { module_name := "z", name := "Z", level := 5 }

/-- A resolvable one-level relative import. -/
def importOneUp : ImportStatement :=
  { module_name := "w", name := "W", level := 1 }

/-- A module environment: `mymod` defining `Worker` with the builtin
`str` available. -/
def workerModule : PyObj :=
  .module "mymod" [("Worker", .pyclass "pkg.mod" "Worker")]
    [("str", .pyclass "builtins" "str")]

/-- A module environment with only the builtin `int` available. -/
def intOnlyModule : PyObj :=
  .module "mymod" [] [("int", .pyclass "builtins" "int")]

/-- A trivial stand-in for the compound-type splitter parameter in
fixtures whose annotations are never compound. -/
def noSplit : String → List String := fun _ => []

/-- An astvisitors constructor-visitor state after the signature
`def __init__(self, xx: int)` was collected. -/
def sigState : AstVisitors.ConstructorVisitorState :=
  { class_self_id := some "self",
    variables_namespace :=
      [{ id := "self" }, { id := "xx", type_expr := some (.name "int") }] }

/-- The constructor `def __init__(self, a: int, b: str)` whose body
assigns `self.x = a`, `self.y = 0`, then `self.x = b`. -/
def overwritingCtor : FunctionDefNode :=
  { name := "__init__",
    args := [{ arg := "self" }, { arg := "a", ann := some (.name "int") },
             { arg := "b", ann := some (.name "str") }],
    body := [.assign [.attr (.name "self") "x"] (.name "a"),
             .assign [.attr (.name "self") "y"] (.constant "0"),
             .assign [.attr (.name "self") "x"] (.name "b")] }

/-- The constructor `def __init__(self)` assigning `self.x = 1`. -/
def simpleCtor : FunctionDefNode :=
  { name := "__init__", args := [{ arg := "self" }],
    body := [.assign [.attr (.name "self") "x"] (.constant "1")] }

/-- A class whose body declares the constructor first and a class-level
assignment `y = 2` after it. -/
def initFirstClass : ClassDefNode :=
  { name := "A",
    body := [.functiondef simpleCtor, .assign [.name "y"] (.constant "2")] }

/-- A `property`-decorated getter `def total(self) -> float`. -/
def getterDef : FunctionDefNode :=
  { name := "total", args := [{ arg := "self" }],
    decorator_list := [.name "property"], returns := some (.name "float") }

/-- The aliased import `from ... import CommownLeaf as CommonLeaf`, its
module name already resolved to `pkg.nomod.leaf`. -/
def aliasedImport : ImportStatement :=
  ⟨"mod.leaf", "CommownLeaf", some "CommonLeaf", 0, some "pkg.nomod.leaf"⟩

/-- A module whose import dict binds the alias `CommonLeaf`. -/
def aliasedImportModule : ModuleNS :=
  { fully_qualified_name := "pkg.branch",
    import_statements := [("CommonLeaf", aliasedImport)] }

/-- The absolute import `from os.path import join`. -/
def importAbsolute : ImportStatement :=
  { module_name := "os.path", name := "join", level := 0 }

end Py2Puml.Fixtures

namespace Py2Puml

theorem bind_ok_eq {ε α β : Type} (a : α) (f : α → Except ε β) :
    (Except.ok a >>= f) = f a := rfl

theorem bind_error_eq {ε α β : Type} (e : ε) (f : α → Except ε β) :
    ((Except.error e : Except ε α) >>= f) = .error e := rfl

theorem pure_ok_eq {ε α : Type} (a : α) :
    (pure a : Except ε α) = Except.ok a := rfl

theorem lookup_eq_none_of_any_eq_false {α : Type} {d : List (String × α)}
    {k : String} (h : d.any (fun p => p.1 == k) = false) :
    d.lookup k = none := by
  induction d with
  | nil => rfl
  | cons p rest ih =>
    simp only [List.any_cons, Bool.or_eq_false_iff] at h
    simp only [List.lookup]
    have hk : (k == p.1) = false := by
      cases hpk : p.1 == k with
      | true => exact absurd hpk (by simp [h.1])
      | false =>
        simp only [beq_eq_false_iff_ne] at hpk ⊢
        exact fun he => hpk he.symm
    rw [hk]
    exact ih h.2

theorem lookup_append_of_lookup_none {α : Type} {d : List (String × α)}
    (l : List (String × α)) {k : String} (h : d.lookup k = none) :
    (d ++ l).lookup k = l.lookup k := by
  induction d with
  | nil => rfl
  | cons p rest ih =>
    simp only [List.lookup] at h ⊢
    cases hk : (k == p.1) with
    | true => rw [hk] at h; exact Option.noConfusion h
    | false => rw [hk] at h; exact ih h

theorem lookup_map_replace {α : Type} (d : List (String × α)) (k : String)
    (v : α) :
    (d.map (fun p => if p.1 == k then (k, v) else p)).lookup k =
      cond (d.any (fun p => p.1 == k)) (some v) none := by
  induction d with
  | nil => rfl
  | cons p rest ih =>
    simp only [List.map_cons, List.any_cons]
    by_cases hpk : p.1 = k
    · have h1 : (p.1 == k) = true := beq_iff_eq.mpr hpk
      rw [if_pos h1, h1]
      simp [List.lookup]
    · have h1 : (p.1 == k) = false := beq_eq_false_iff_ne.mpr hpk
      have h2 : (k == p.1) = false :=
        beq_eq_false_iff_ne.mpr (fun he => hpk he.symm)
      rw [if_neg (by simp [h1]), h1]
      simpa [List.lookup, h2] using ih

/-- Dict-update semantics: after `dictInsert`, looking the key up yields
the new value. -/
theorem dictInsert_lookup {α : Type} (d : List (String × α)) (k : String)
    (v : α) : (dictInsert d k v).lookup k = some v := by
  unfold dictInsert
  cases h : d.any (fun p => p.1 == k) with
  | true => rw [if_pos rfl, lookup_map_replace, h]; rfl
  | false =>
    rw [if_neg (by simp [h]),
        lookup_append_of_lookup_none _ (lookup_eq_none_of_any_eq_false h)]
    simp [List.lookup]

/-- Writing to an existing key leaves the key sequence unchanged: the
entry is overwritten in place. -/
theorem dictInsert_map_fst_of_mem {α : Type} {d : List (String × α)}
    {k : String} (v : α) (h : d.any (fun p => p.1 == k) = true) :
    (dictInsert d k v).map Prod.fst = d.map Prod.fst := by
  unfold dictInsert
  rw [if_pos h, List.map_map]
  apply List.map_congr_left
  intro p _
  simp only [Function.comp_apply]
  split
  · next hpk => exact (eq_of_beq hpk).symm
  · rfl

/-- Writing to a fresh key appends it at the end of the key sequence. -/
theorem dictInsert_map_fst_of_not_mem {α : Type} {d : List (String × α)}
    {k : String} (v : α) (h : d.any (fun p => p.1 == k) = false) :
    (dictInsert d k v).map Prod.fst = d.map Prod.fst ++ [k] := by
  unfold dictInsert
  rw [if_neg (by simp [h]), List.map_append]
  rfl

/-- Any member of the updated dict is the inserted pair or an original
member. -/
theorem mem_dictInsert {α : Type} {d : List (String × α)} {k : String}
    {v : α} {p : String × α} (h : p ∈ dictInsert d k v) :
    p = (k, v) ∨ p ∈ d := by
  unfold dictInsert at h
  split at h
  · obtain ⟨q, hq, hpq⟩ := List.mem_map.mp h
    by_cases hk : q.1 == k
    · left; rw [if_pos hk] at hpq; exact hpq.symm
    · right; rw [if_neg hk] at hpq; exact hpq ▸ hq
  · rcases List.mem_append.mp h with hmem | hnew
    · right; exact hmem
    · left; simpa using hnew

/-- `dictInsert` preserves distinctness of the keys. -/
theorem dictInsert_nodup_keys {α : Type} {d : List (String × α)}
    {k : String} (v : α) (h : (d.map Prod.fst).Nodup) :
    ((dictInsert d k v).map Prod.fst).Nodup := by
  cases hmem : d.any (fun p => p.1 == k) with
  | true => rw [dictInsert_map_fst_of_mem v hmem]; exact h
  | false =>
    rw [dictInsert_map_fst_of_not_mem v hmem]
    refine List.Nodup.append h (List.nodup_singleton k) ?_
    intro a ha hb
    simp only [List.mem_singleton] at hb
    subst hb
    obtain ⟨q, hq, hqa⟩ := List.mem_map.mp ha
    have hany : d.any (fun p => p.1 == a) = true :=
      List.any_eq_true.mpr ⟨q, hq, by simp [hqa]⟩
    exact Bool.false_ne_true (hmem ▸ hany)

end Py2Puml

namespace Py2Puml.Modules

theorem walkUp_of_ancestorChain_get :
    ∀ (l : Nat) (m : HierNode) (afqn : String),
      m.ancestorChain.get? l = some afqn →
      ∃ p, m.walkUp (l + 1) = .ok p ∧ p.fully_qualified_name = afqn := by
  intro l
  induction l with
  | zero =>
    intro m afqn h
    match m with
    | .node f none => simp [HierNode.ancestorChain] at h
    | .node f (some p) =>
      simp only [HierNode.ancestorChain, List.get?_cons_zero, Option.some.injEq] at h
      exact ⟨p, rfl, h⟩
  | succ l ih =>
    intro m afqn h
    match m with
    | .node f none => simp [HierNode.ancestorChain] at h
    | .node f (some p) =>
      simp only [HierNode.ancestorChain, List.get?_cons_succ] at h
      obtain ⟨q, hw, hq⟩ := ih p afqn h
      exact ⟨q, hw, hq⟩

theorem walkUp_error_of_chain_short :
    ∀ (l : Nat) (m : HierNode), m.ancestorChain.length < l →
      ∃ e, m.walkUp l = .error e := by
  intro l
  induction l with
  | zero => intro m h; omega
  | succ l ih =>
    intro m h
    match m with
    | .node f none => exact ⟨_, rfl⟩
    | .node f (some p) =>
      simp only [HierNode.ancestorChain, List.length_cons] at h
      exact ih p (by omega)

theorem resolveBaseEntry_some_mem {registry : List String} {m : ModuleNS}
    {pqn fqn : String}
    (h : resolveBaseEntry registry m pqn = .ok (some fqn)) :
    fqn ∈ registry := by
  unfold resolveBaseEntry at h
  cases hb : (if containsDot pqn then resolve_class_pqn m pqn
              else Except.ok (resolve_class_name m pqn)) with
  | error e => rw [hb] at h; exact Except.noConfusion h
  | ok base =>
    rw [hb] at h
    cases base with
    | none => simp at h
    | some f =>
      simp only [Py2Puml.bind_ok_eq] at h
      cases hc : registry.contains f with
      | true =>
        rw [hc] at h
        simp only [if_true, Except.ok.injEq, Option.some.injEq] at h
        subst h
        exact List.mem_of_elem_eq_true hc
      | false =>
        rw [hc] at h
        simp at h

theorem resolveBaseEntries_some_mem {registry : List String} {m : ModuleNS} :
    ∀ {l : List (String × Option String)}
      {res : List (String × Option String × Option String)},
      resolveBaseEntries registry m l = .ok res →
      ∀ t ∈ res, ∀ f, t.2.2 = some f → f ∈ registry := by
  intro l
  induction l with
  | nil =>
    intro res h t ht f hf
    simp only [resolveBaseEntries] at h
    cases h
    simp at ht
  | cons e rest ih =>
    intro res h t ht f hf
    simp only [resolveBaseEntries] at h
    cases hb : resolveBaseEntry registry m e.1 with
    | error err => rw [hb] at h; exact Except.noConfusion h
    | ok b =>
      rw [hb] at h
      cases hr : resolveBaseEntries registry m rest with
      | error err => rw [hr] at h; exact Except.noConfusion h
      | ok rest' =>
        rw [hr] at h
        simp only [Py2Puml.bind_ok_eq, Py2Puml.pure_ok_eq, Except.ok.injEq] at h
        subst h
        rcases List.mem_cons.mp ht with hhead | htail
        · subst hhead
          simp only at hf
          rw [hf] at hb
          exact resolveBaseEntry_some_mem hb
        · exact ih hr t htail f hf

theorem resolveBaseEntries_keys {registry : List String} {m : ModuleNS} :
    ∀ {l : List (String × Option String)}
      {res : List (String × Option String × Option String)},
      resolveBaseEntries registry m l = .ok res →
      res.map (fun t => t.1) = l.map (fun e => e.1) := by
  intro l
  induction l with
  | nil =>
    intro res h
    simp only [resolveBaseEntries] at h
    cases h
    rfl
  | cons e rest ih =>
    intro res h
    simp only [resolveBaseEntries] at h
    cases hb : resolveBaseEntry registry m e.1 with
    | error err => rw [hb] at h; exact Except.noConfusion h
    | ok b =>
      rw [hb] at h
      cases hr : resolveBaseEntries registry m rest with
      | error err => rw [hr] at h; exact Except.noConfusion h
      | ok rest' =>
        rw [hr] at h
        simp only [Py2Puml.bind_ok_eq, Py2Puml.pure_ok_eq, Except.ok.injEq] at h
        subst h
        simp [ih hr]

theorem resolve_class_bases_entries {registry : List String} {m : ModuleNS}
    {c c' : PythonClassRec}
    (h : resolve_class_bases registry m c = .ok c') :
    ∀ e ∈ c'.base_classes, ∃ fqn, e.2 = some fqn ∧ fqn ∈ registry := by
  unfold resolve_class_bases at h
  cases hemp : c.base_classes.isEmpty with
  | true =>
    rw [hemp] at h
    simp only [if_true, Except.ok.injEq] at h
    subst h
    intro e he
    rw [List.isEmpty_iff.mp hemp] at he
    simp at he
  | false =>
    rw [hemp] at h
    simp only [if_false, Bool.false_eq_true] at h
    cases hr : resolveBaseEntries registry m c.base_classes with
    | error err => rw [hr] at h; exact Except.noConfusion h
    | ok resolved =>
      rw [hr] at h
      simp only [Py2Puml.bind_ok_eq, Py2Puml.pure_ok_eq, Except.ok.injEq] at h
      subst h
      intro e he
      simp only [List.mem_filterMap] at he
      obtain ⟨t, ht, hte⟩ := he
      cases htt : t.2.2 with
      | none => rw [htt] at hte; exact Option.noConfusion hte
      | some fqn =>
        rw [htt] at hte
        simp only [Option.some.injEq] at hte
        subst hte
        exact ⟨fqn, rfl, resolveBaseEntries_some_mem hr t ht fqn htt⟩

theorem resolve_class_bases_keep_keys {registry : List String} {m : ModuleNS}
    {c c' : PythonClassRec}
    (h : resolve_class_bases_keep registry m c = .ok c') :
    c'.base_classes.map (fun e => e.1) = c.base_classes.map (fun e => e.1) := by
  unfold resolve_class_bases_keep at h
  cases hemp : c.base_classes.isEmpty with
  | true =>
    rw [hemp] at h
    simp only [if_true, Except.ok.injEq] at h
    subst h
    rfl
  | false =>
    rw [hemp] at h
    simp only [if_false, Bool.false_eq_true] at h
    cases hr : resolveBaseEntries registry m c.base_classes with
    | error err => rw [hr] at h; exact Except.noConfusion h
    | ok resolved =>
      rw [hr] at h
      simp only [Py2Puml.bind_ok_eq, Py2Puml.pure_ok_eq, Except.ok.injEq] at h
      subst h
      have h2 := resolveBaseEntries_keys hr
      rw [List.map_map]
      refine Eq.trans ?_ h2
      apply List.map_congr_left
      intro t _
      rcases t with ⟨a, b, cc⟩
      cases cc <;> rfl

theorem resolveClasses_entries {registry : List String} {m : ModuleNS} :
    ∀ {cs cs' : List PythonClassRec},
      resolveClasses registry resolve_class_bases m cs = .ok cs' →
      ∀ c ∈ cs', ∀ e ∈ c.base_classes,
        ∃ fqn, e.2 = some fqn ∧ fqn ∈ registry := by
  intro cs
  induction cs with
  | nil =>
    intro cs' h c hc
    simp only [resolveClasses] at h
    cases h
    simp at hc
  | cons c0 rest ih =>
    intro cs' h c hc
    simp only [resolveClasses] at h
    cases hb : resolve_class_bases registry m c0 with
    | error err => rw [hb] at h; exact Except.noConfusion h
    | ok c0' =>
      rw [hb] at h
      cases hr : resolveClasses registry resolve_class_bases m rest with
      | error err => rw [hr] at h; exact Except.noConfusion h
      | ok rest' =>
        rw [hr] at h
        simp only [Py2Puml.bind_ok_eq, Py2Puml.pure_ok_eq, Except.ok.injEq] at h
        subst h
        rcases List.mem_cons.mp hc with hhead | htail
        · subst hhead; exact resolve_class_bases_entries hb
        · exact ih hr c htail

theorem resolveModules_entries {registry : List String} :
    ∀ {ms ms' : List (ModuleNS × List PythonClassRec)},
      resolveModules registry resolve_class_bases ms = .ok ms' →
      ∀ p ∈ ms', ∀ c ∈ p.2, ∀ e ∈ c.base_classes,
        ∃ fqn, e.2 = some fqn ∧ fqn ∈ registry := by
  intro ms
  induction ms with
  | nil =>
    intro ms' h p hp
    simp only [resolveModules] at h
    cases h
    simp at hp
  | cons m0 rest ih =>
    intro ms' h p hp
    simp only [resolveModules] at h
    cases hb : resolveClasses registry resolve_class_bases m0.1 m0.2 with
    | error err => rw [hb] at h; exact Except.noConfusion h
    | ok cs' =>
      rw [hb] at h
      cases hr : resolveModules registry resolve_class_bases rest with
      | error err => rw [hr] at h; exact Except.noConfusion h
      | ok rest' =>
        rw [hr] at h
        simp only [Py2Puml.bind_ok_eq, Py2Puml.pure_ok_eq, Except.ok.injEq] at h
        subst h
        rcases List.mem_cons.mp hp with hhead | htail
        · subst hhead; exact resolveClasses_entries hb
        · exact ih hr p htail

mutual

theorem resolveTree_entries (registry : List String) :
    ∀ (t t' : PythonPackageT),
      resolveTree registry resolve_class_bases t = .ok t' →
      ∀ p ∈ find_all_classes t', ∀ e ∈ p.2.base_classes,
        ∃ fqn, e.2 = some fqn ∧ fqn ∈ registry
  | .mk modules subs, t', h => by
    simp only [resolveTree] at h
    cases hm : resolveModules registry resolve_class_bases modules with
    | error err => rw [hm] at h; exact Except.noConfusion h
    | ok modules' =>
      rw [hm] at h
      cases hs : resolveTreeList registry resolve_class_bases subs with
      | error err => rw [hs] at h; exact Except.noConfusion h
      | ok subs' =>
        rw [hs] at h
        simp only [Py2Puml.bind_ok_eq, Py2Puml.pure_ok_eq, Except.ok.injEq] at h
        subst h
        intro p hp e he
        simp only [find_all_classes, List.mem_append] at hp
        rcases hp with hmod | hsub
        · simp only [List.mem_flatMap] at hmod
          obtain ⟨q, hq, hpq⟩ := hmod
          obtain ⟨c, hc, hpc⟩ := List.mem_map.mp hpq
          subst hpc
          exact resolveModules_entries hm q hq c hc e he
        · exact resolveTreeList_entries registry subs subs' hs p hsub e he

theorem resolveTreeList_entries (registry : List String) :
    ∀ (ts : List PythonPackageT) (ts' : List PythonPackageT),
      resolveTreeList registry resolve_class_bases ts = .ok ts' →
      ∀ p ∈ find_all_classes_list ts', ∀ e ∈ p.2.base_classes,
        ∃ fqn, e.2 = some fqn ∧ fqn ∈ registry
  | [], ts', h => by
    simp only [resolveTreeList] at h
    cases h
    intro p hp
    simp [find_all_classes_list] at hp
  | t :: rest, ts', h => by
    simp only [resolveTreeList] at h
    cases ht : resolveTree registry resolve_class_bases t with
    | error err => rw [ht] at h; exact Except.noConfusion h
    | ok t' =>
      rw [ht] at h
      cases hr : resolveTreeList registry resolve_class_bases rest with
      | error err => rw [hr] at h; exact Except.noConfusion h
      | ok rest' =>
        rw [hr] at h
        simp only [Py2Puml.bind_ok_eq, Py2Puml.pure_ok_eq, Except.ok.injEq] at h
        subst h
        intro p hp e he
        simp only [find_all_classes_list, List.mem_append] at hp
        rcases hp with hhead | htail
        · exact resolveTree_entries registry t t' ht p hhead e he
        · exact resolveTreeList_entries registry rest rest' hr p htail e he

end

end Py2Puml.Modules

namespace Py2Puml.Claims

open Py2Puml.Methods Py2Puml.Classes Py2Puml.Modules Py2Puml.Resolving
open Py2Puml.AstVisitors Py2Puml.Fixtures

/-- C2: for the tuple-unpacking assignment
`self.x, other.z, self.y = xx, 3, yy + 1` analyzed with receiver
identifier `self`, the assignment analyzer produces exactly two
attribute-assignment records — `x` sourced from variable `xx` and `y`
sourced from variable `yy` — in this order; the receiver-mismatched
target `other.z` contributes neither an attribute nor a variable, and
the positional alignment between the remaining targets and the
right-hand-side elements is preserved. -/
theorem C2_tuple_unpacking_mixed_targets :
    (Methods.runAssignmentVisitor mixedTupleAssign).map
        (fun s => s.attribute_assignments) =
      .ok [⟨⟨"x", none⟩, ["xx"]⟩, ⟨⟨"y", none⟩, ["yy"]⟩] := by
  rfl

/-- C3: base-class resolution — a dot-free base name is first looked up
among the classes of the same module, yielding the module's fully
qualified name joined with the class name; a dotted base name is
resolved through the module's import table, substituting the import's
original name for its alias before reassembling the fully qualified
key; in particular, for `OakBranch(Branch)` with `Branch` declared in
the same module `pkg.branch`, the resolved base fully qualified name is
`pkg.branch.Branch`. -/
theorem C3_base_class_resolution :
    (∀ (m : ModuleNS) (class_name : String),
       m.class_names.contains class_name = true →
       resolve_class_name m class_name =
         some (m.fully_qualified_name ++ "." ++ class_name)) ∧
    (∀ (m : ModuleNS) (class_pqn fqn : String) (imp : ImportStatement),
       m.import_statements.lookup ((splitOnDot class_pqn).headD "") = some imp →
       imp.fully_qualified_name = some fqn →
       fqn ≠ "" →
       resolve_class_pqn m class_pqn =
         .ok (some (fqn ++ "." ++
           (if imp.alias'.isSome then
              String.intercalate "." (imp.name :: (splitOnDot class_pqn).tail)
            else class_pqn)))) ∧
    resolve_class_inheritance branchPackage =
      .ok (.mk [(branchModule,
                 [branchClass,
                  ⟨"OakBranch", "pkg.branch.OakBranch",
                   [("Branch", some "pkg.branch.Branch")]⟩])] []) := by
  refine ⟨?_, ?_, ?_⟩
  · intro m class_name h
    have hm : class_name ∈ m.class_names := List.mem_of_elem_eq_true h
    simp [resolve_class_name, hm]
  · intro m class_pqn fqn imp h1 h2 h3
    have hbeq : (fqn == "") = false := beq_eq_false_iff_ne.mpr h3
    simp only [resolve_class_pqn, h1, h2]
    rw [if_neg (by simp [hbeq])]
  · rfl

/-- Witness for C3 at concrete inputs: `Branch` in `pkg.branch` and an
aliased dotted name through the import table. -/
theorem C3_base_class_resolution_witness :
    resolve_class_name branchModule "Branch" = some "pkg.branch.Branch" ∧
    resolve_class_pqn aliasedImportModule "CommonLeaf.Inner" =
      .ok (some "pkg.nomod.leaf.CommownLeaf.Inner") := by
  constructor
  · exact C3_base_class_resolution.1 branchModule "Branch" (by decide)
  · exact C3_base_class_resolution.2.1 aliasedImportModule "CommonLeaf.Inner"
      "pkg.nomod.leaf" aliasedImport rfl rfl (by decide)

/-- C4: resolution of an import sets the fully qualified name of a
level-0 one to its module name unchanged, and for level `n > 0` walks up
exactly `n` parent-package links starting from the importing module and
joins the arrived-at package's fully qualified name with the module
name; in particular `from ..a.b import C` inside `root.x.y` resolves to
`root.a.b`. -/
theorem C4_relative_import_resolution :
    (∀ (m : HierNode) (imp : ImportStatement) (rest : List ImportStatement),
       imp.level = 0 →
       resolve_module_imports m (imp :: rest) =
         (({ imp with fully_qualified_name := some imp.module_name }) ::
            (resolve_module_imports m rest).1,
          (resolve_module_imports m rest).2)) ∧
    (∀ (m : HierNode) (imp : ImportStatement) (afqn : String),
       0 < imp.level →
       m.ancestorChain.get? (imp.level - 1) = some afqn →
       resolve_relative_import m imp =
         .ok { imp with fully_qualified_name := some (afqn ++ "." ++ imp.module_name) }) ∧
    resolve_relative_import rootXYNode importDotDotAB =
      .ok { importDotDotAB with fully_qualified_name := some "root.a.b" } := by
  refine ⟨?_, ?_, ?_⟩
  · intro m imp rest h
    have hrel : imp.is_relative = false := by
      simp [ImportStatement.is_relative, h]
    simp only [resolve_module_imports, hrel, Bool.false_eq_true, if_false]
  · intro m imp afqn hpos hchain
    obtain ⟨k, hk⟩ : ∃ k, imp.level = k + 1 := ⟨imp.level - 1, by omega⟩
    have h0 : (imp.level == 0) = false :=
      beq_eq_false_iff_ne.mpr (by omega)
    obtain ⟨p, hwalk, hfqn⟩ :=
      walkUp_of_ancestorChain_get (imp.level - 1) m afqn hchain
    have hwalk' : m.walkUp imp.level = .ok p := by
      have : imp.level - 1 + 1 = imp.level := by omega
      rw [← this]
      exact hwalk
    simp only [resolve_relative_import, h0, Bool.false_eq_true, if_false,
      hwalk', Py2Puml.bind_ok_eq, hfqn]
  · rfl

/-- Witness for C4 at concrete inputs: a level-0 import and the
`root.x.y` two-level relative import. -/
theorem C4_relative_import_resolution_witness :
    resolve_module_imports rootXYNode [importAbsolute] =
      ([{ importAbsolute with fully_qualified_name := some "os.path" }], none) ∧
    resolve_relative_import rootXYNode importDotDotAB =
      .ok { importDotDotAB with fully_qualified_name := some "root.a.b" } := by
  constructor
  · exact C4_relative_import_resolution.1 rootXYNode importAbsolute [] rfl
  · exact C4_relative_import_resolution.2.1 rootXYNode importDotDotAB "root"
      (by decide) rfl

/-- C5 (amended): when a relative import's level exceeds the available
parent chain, `resolve_relative_import` raises an explicit resolution
error; the exception propagates out of the resolution pass, so the
failing import and everything after it — later imports of the same
module and all later modules — remain unresolved: the pass aborts
rather than continuing. -/
theorem C5_relative_import_error_aborts_pass :
    (∀ (m : HierNode) (imp : ImportStatement) (rest : List ImportStatement)
       (e : String),
       imp.is_relative = true →
       resolve_relative_import m imp = .error e →
       resolve_module_imports m (imp :: rest) = (imp :: rest, some e)) ∧
    (∀ (m : HierNode) (imps : List ImportStatement)
       (rest : List (HierNode × List ImportStatement)) (e : String),
       (resolve_module_imports m imps).2 = some e →
       resolve_relative_imports_pass ((m, imps) :: rest) =
         ((m, (resolve_module_imports m imps).1) :: rest, some e)) ∧
    (∀ (m : HierNode) (imp : ImportStatement),
       m.ancestorChain.length < imp.level →
       ∃ e, resolve_relative_import m imp = .error e) := by
  refine ⟨?_, ?_, ?_⟩
  · intro m imp rest e h1 h2
    simp [resolve_module_imports, h1, h2]
  · intro m imps rest e h
    rcases hx : resolve_module_imports m imps with ⟨imps', err⟩
    rw [hx] at h
    simp only at h
    subst h
    simp [resolve_relative_imports_pass, hx]
  · intro m imp h
    have hlvl : imp.level ≠ 0 := by omega
    have h0 : (imp.level == 0) = false := beq_eq_false_iff_ne.mpr hlvl
    obtain ⟨e, he⟩ := walkUp_error_of_chain_short imp.level m h
    refine ⟨e, ?_⟩
    simp only [resolve_relative_import, h0, Bool.false_eq_true, if_false, he,
      Py2Puml.bind_error_eq]

/-- Witness for C5 at concrete inputs: the level-5 import inside
`root.x.y` errors and aborts its module's loop. -/
theorem C5_relative_import_error_aborts_pass_witness :
    resolve_module_imports rootXYNode [importTooDeep, importOneUp] =
      ([importTooDeep, importOneUp],
       some "Could not resolve relative import: package has no parent.") ∧
    (∃ e, resolve_relative_import rootXYNode importTooDeep = .error e) := by
  constructor
  · exact C5_relative_import_error_aborts_pass.1 rootXYNode importTooDeep
      [importOneUp] _ rfl rfl
  · exact C5_relative_import_error_aborts_pass.2.2 rootXYNode importTooDeep
      (by decide)

/-- Counterexample to C5 as stated: inside `root.x.y`, the level-5
relative import fails, and the resolution pass does not continue — the
later one, `importOneUp`, although resolvable, is left with no fully
qualified name when the pass returns. -/
theorem C5_counterexample_pass_does_not_continue :
    resolve_relative_imports_pass [(rootXYNode, [importTooDeep, importOneUp])] =
      ([(rootXYNode, [importTooDeep, importOneUp])],
       some "Could not resolve relative import: package has no parent.") ∧
    importOneUp.fully_qualified_name = none := by
  exact ⟨rfl, rfl⟩

/-- C6 (amended): after `py2puml/package.py` base-class resolution,
every entry remaining in every class's base-class map is bound to a
class of the package tree's registry — unresolved names are removed
from the map; the `py2puml/domain/umlclass.py` resolver invoked by the
`py2puml` entry point instead keeps every key of the map, retaining
unresolved names as null-valued entries. -/
theorem C6_dangling_base_entries :
    (∀ (pkg pkg' : PythonPackageT),
       resolve_class_inheritance pkg = .ok pkg' →
       ∀ p ∈ find_all_classes pkg', ∀ e ∈ p.2.base_classes,
         ∃ fqn, e.2 = some fqn ∧
           fqn ∈ (find_all_classes pkg).map
             (fun q => q.2.fully_qualified_name)) ∧
    (∀ (registry : List String) (m : ModuleNS) (c c' : PythonClassRec),
       resolve_class_bases_keep registry m c = .ok c' →
       c'.base_classes.map (fun e => e.1) =
         c.base_classes.map (fun e => e.1)) := by
  constructor
  · intro pkg pkg' h p hp e he
    simp only [resolve_class_inheritance] at h
    exact resolveTree_entries _ pkg pkg' h p hp e he
  · intro registry m c c' h
    exact resolve_class_bases_keep_keys h

/-- Witness for C6 at concrete inputs: the resolved `OakBranch` entry is
bound to an in-tree class, and the keep-variant preserves the key of a
dangling base. -/
theorem C6_dangling_base_entries_witness :
    (∃ fqn, (("Branch", some "pkg.branch.Branch") : String × Option String).2 =
        some fqn ∧
      fqn ∈ (find_all_classes branchPackage).map
        (fun q => q.2.fully_qualified_name)) ∧
    (⟨"C", "pkg.branch.C", [("Unknown", none)]⟩ :
        PythonClassRec).base_classes.map (fun e => e.1) =
      danglingBaseClass.base_classes.map (fun e => e.1) := by
  constructor
  · exact C6_dangling_base_entries.1 branchPackage
      (.mk [(branchModule,
             [branchClass,
              ⟨"OakBranch", "pkg.branch.OakBranch",
               [("Branch", some "pkg.branch.Branch")]⟩])] []) rfl
      (branchModule,
       ⟨"OakBranch", "pkg.branch.OakBranch",
        [("Branch", some "pkg.branch.Branch")]⟩) (by decide)
      ("Branch", some "pkg.branch.Branch") (by decide)
  · exact C6_dangling_base_entries.2 ["pkg.branch.C"] branchModule
      danglingBaseClass ⟨"C", "pkg.branch.C", [("Unknown", none)]⟩ rfl

/-- Counterexample to C6 as stated: the `py2puml/domain/umlclass.py`
resolver — the one the `py2puml` entry point runs — retains the
unresolvable base name `Unknown` as a null-valued entry instead of
removing it from the map. -/
theorem C6_counterexample_null_entry_retained :
    resolve_class_inheritance_keep danglingPackage =
      .ok (.mk [(branchModule,
                 [⟨"C", "pkg.branch.C", [("Unknown", none)]⟩])] []) := by
  rfl

end Py2Puml.Claims

namespace Py2Puml.AstVisitors

theorem buildCandidates_prop (class_fqn root_fqn : String)
    (rels : List (String × UmlRelation)) :
    ∀ (targets : List (Option String)) (acc res : List (String × UmlRelation)),
      buildCandidates class_fqn root_fqn rels acc targets = .ok res →
      (∀ p ∈ acc, pyStartsWith p.1 root_fqn = true ∧
        p.2 = ⟨class_fqn, p.1, RelType.COMPOSITION⟩) →
      ∀ p ∈ res, pyStartsWith p.1 root_fqn = true ∧
        p.2 = ⟨class_fqn, p.1, RelType.COMPOSITION⟩ := by
  intro targets
  induction targets with
  | nil =>
    intro acc res h hacc
    simp only [buildCandidates] at h
    cases h
    exact hacc
  | cons t rest ih =>
    intro acc res h hacc
    match t with
    | none =>
      simp only [buildCandidates] at h
      exact Except.noConfusion h
    | some ts =>
      simp only [buildCandidates] at h
      cases hc : (pyStartsWith ts root_fqn && (rels.lookup ts).isNone) with
      | false =>
        rw [hc] at h
        simp only [Bool.false_eq_true, if_false] at h
        exact ih acc res h hacc
      | true =>
        rw [hc] at h
        simp only [if_true] at h
        refine ih _ res h ?_
        intro p hp
        rcases Py2Puml.mem_dictInsert hp with hnew | hold
        · subst hnew
          have h1 : pyStartsWith ts root_fqn = true := by
            have hc' := hc
            simp only [Bool.and_eq_true] at hc'
            exact hc'.1
          exact ⟨h1, rfl⟩
        · exact hacc p hold

theorem foldl_dictInsert_prop (class_fqn root_fqn : String) :
    ∀ (entries d : List (String × UmlRelation)),
      (d.map Prod.fst).Nodup →
      (∀ p ∈ d, pyStartsWith p.1 root_fqn = true ∧
        p.2 = ⟨class_fqn, p.1, RelType.COMPOSITION⟩) →
      (∀ q ∈ entries, pyStartsWith q.1 root_fqn = true ∧
        q.2 = ⟨class_fqn, q.1, RelType.COMPOSITION⟩) →
      (((entries.foldl (fun d p => Py2Puml.dictInsert d p.1 p.2) d).map
          Prod.fst).Nodup ∧
       ∀ p ∈ entries.foldl (fun d p => Py2Puml.dictInsert d p.1 p.2) d,
         pyStartsWith p.1 root_fqn = true ∧
         p.2 = ⟨class_fqn, p.1, RelType.COMPOSITION⟩) := by
  intro entries
  induction entries with
  | nil =>
    intro d hnd hd _
    exact ⟨hnd, hd⟩
  | cons q rest ih =>
    intro d hnd hd hq
    simp only [List.foldl_cons]
    refine ih (Py2Puml.dictInsert d q.1 q.2)
      (Py2Puml.dictInsert_nodup_keys q.2 hnd) ?_
      (fun r hr => hq r (List.mem_cons_of_mem q hr))
    intro p hp
    rcases Py2Puml.mem_dictInsert hp with hnew | hold
    · subst hnew
      exact hq q (List.mem_cons_self q rest)
    · exact hd p hold

theorem extend_relations_prop {class_fqn root_fqn : String}
    {rels rels' : List (String × UmlRelation)}
    {targets : List (Option String)}
    (h : extend_relations class_fqn root_fqn rels targets = .ok rels')
    (hnd : (rels.map Prod.fst).Nodup)
    (hrels : ∀ p ∈ rels, pyStartsWith p.1 root_fqn = true ∧
      p.2 = ⟨class_fqn, p.1, RelType.COMPOSITION⟩) :
    ((rels'.map Prod.fst).Nodup ∧
     ∀ p ∈ rels', pyStartsWith p.1 root_fqn = true ∧
       p.2 = ⟨class_fqn, p.1, RelType.COMPOSITION⟩) := by
  unfold extend_relations at h
  cases hb : buildCandidates class_fqn root_fqn rels [] targets with
  | error e => rw [hb] at h; exact Except.noConfusion h
  | ok newDict =>
    rw [hb] at h
    simp only [Py2Puml.bind_ok_eq, Except.ok.injEq] at h
    subst h
    exact foldl_dictInsert_prop class_fqn root_fqn newDict rels hnd hrels
      (buildCandidates_prop class_fqn root_fqn rels targets [] newDict hb
        (by intro p hp; simp at hp))

end Py2Puml.AstVisitors

namespace Py2Puml.Resolving

theorem shortenParts_error (module : PyObj) :
    ∀ (parts : List String),
      (∃ part ∈ parts, SPLITTING_CHARACTERS.contains part = false ∧
         ∀ nt, resolve_full_namespace_type module (some part) = .ok nt →
           nt.type_name = none) →
      ∃ e, shortenParts module parts = .error e := by
  intro parts
  induction parts with
  | nil =>
    intro h
    obtain ⟨part, hmem, _⟩ := h
    simp at hmem
  | cons p rest ih =>
    intro h
    obtain ⟨part, hmem, hns, hbad⟩ := h
    rcases List.mem_cons.mp hmem with hhead | htail
    · subst hhead
      simp only [shortenParts, hns, Bool.false_eq_true, if_false]
      cases hr : resolve_full_namespace_type module (some part) with
      | error e => exact ⟨e, rfl⟩
      | ok nt =>
        have hnone := hbad nt hr
        refine ⟨"Could not resolve type " ++ part ++
          " in module: it needs to be imported explicitely.", ?_⟩
        simp only [Py2Puml.bind_ok_eq, hnone]
    · cases hsp : SPLITTING_CHARACTERS.contains p with
      | true =>
        obtain ⟨e, he⟩ := ih ⟨part, htail, hns, hbad⟩
        refine ⟨e, ?_⟩
        simp only [shortenParts, hsp, if_true, he]
        rfl
      | false =>
        simp only [shortenParts, hsp, Bool.false_eq_true, if_false]
        cases hr : resolve_full_namespace_type module (some p) with
        | error e => exact ⟨e, rfl⟩
        | ok nt =>
          cases hnt : nt.type_name with
          | none =>
            refine ⟨"Could not resolve type " ++ p ++
              " in module: it needs to be imported explicitely.", ?_⟩
            simp only [Py2Puml.bind_ok_eq, hnt]
          | some short =>
            obtain ⟨e, he⟩ := ih ⟨part, htail, hns, hbad⟩
            refine ⟨e, ?_⟩
            simp only [Py2Puml.bind_ok_eq, hnt, he]
            rfl

end Py2Puml.Resolving

namespace Py2Puml.Claims

open Py2Puml.Modules Py2Puml.Resolving Py2Puml.AstVisitors Py2Puml.Fixtures

/-- C7: over any sequence of composition-candidate registrations on one
constructor analysis, every recorded COMPOSITION relationship's target
fully qualified name starts with the documented root package's fully
qualified name, each target appears at most once (the dict is keyed by
target), and each entry is the COMPOSITION relationship from the owning
class to that target. -/
theorem C7_composition_filter_and_dedup :
    ∀ (class_fqn root_fqn : String) (calls : List (List (Option String))),
      ((runExtendCalls class_fqn root_fqn calls).map Prod.fst).Nodup ∧
      ∀ p ∈ runExtendCalls class_fqn root_fqn calls,
        pyStartsWith p.1 root_fqn = true ∧
        p.2 = ⟨class_fqn, p.1, RelType.COMPOSITION⟩ := by
  intro class_fqn root_fqn calls
  suffices hgen : ∀ (rels : List (String × UmlRelation)),
      (rels.map Prod.fst).Nodup →
      (∀ p ∈ rels, pyStartsWith p.1 root_fqn = true ∧
        p.2 = ⟨class_fqn, p.1, RelType.COMPOSITION⟩) →
      ((calls.foldl (fun rels call =>
          match extend_relations class_fqn root_fqn rels call with
          | .ok rels' => rels'
          | .error _ => rels) rels).map Prod.fst).Nodup ∧
      ∀ p ∈ calls.foldl (fun rels call =>
          match extend_relations class_fqn root_fqn rels call with
          | .ok rels' => rels'
          | .error _ => rels) rels,
        pyStartsWith p.1 root_fqn = true ∧
        p.2 = ⟨class_fqn, p.1, RelType.COMPOSITION⟩ by
    exact hgen [] (by simp) (by intro p hp; simp at hp)
  induction calls with
  | nil => intro rels hnd hrels; exact ⟨hnd, hrels⟩
  | cons call rest ih =>
    intro rels hnd hrels
    simp only [List.foldl_cons]
    cases hx : extend_relations class_fqn root_fqn rels call with
    | error e => exact ih rels hnd hrels
    | ok rels' =>
      obtain ⟨hnd', hrels'⟩ := extend_relations_prop hx hnd hrels
      exact ih rels' hnd' hrels'

/-- Witness for C7 at a concrete registration sequence: in-root and
out-of-root targets with a repeated target. -/
theorem C7_composition_filter_and_dedup_witness :
    ((runExtendCalls "root.m.C" "root"
        [[some "root.a.A", some "ext.B"],
         [some "root.a.A", some "root.b.B"]]).map Prod.fst).Nodup :=
  (C7_composition_filter_and_dedup "root.m.C" "root"
    [[some "root.a.A", some "ext.B"], [some "root.a.A", some "root.b.B"]]).1

/-- C8: shortening a compound type annotation raises an error whenever
any atomic token of the compound expression cannot be resolved to a
short name, whereas resolving a simple partially qualified type name
that is found neither among the module's members nor by the namespace
walk returns the pair (null, null) without raising. -/
theorem C8_compound_hard_error_simple_graceful :
    (∀ (module : PyObj) (parts : List String),
       (∃ part ∈ parts, SPLITTING_CHARACTERS.contains part = false ∧
          ∀ nt, resolve_full_namespace_type module (some part) = .ok nt →
            nt.type_name = none) →
       ∃ e, shorten_compound_type_annotation module parts = .error e) ∧
    (∀ (module : PyObj) (p : String),
       (varsOf module).find? (fun kv => string_repr kv.2 == p) = none →
       (Py2Puml.splitOnDot p).foldl search_in_module_or_builtins
           (some module) = none →
       resolve_full_namespace_type module (some p) =
         .ok EMPTY_NAMESPACED_TYPE) := by
  constructor
  · intro module parts h
    obtain ⟨e, he⟩ := shortenParts_error module parts h
    exact ⟨e, by simp only [ shorten_compound_type_annotation, he]; rfl⟩
  · intro module p h1 h2
    simp only [resolve_full_namespace_type, h1, search_in_module, h2]

/-- Witness for C8 at concrete inputs: `Dict[str]` cannot be shortened
in a module where `Dict` is not importable, while the plain lookup of
the unknown name `Nope` degrades to the empty pair. -/
theorem C8_compound_hard_error_simple_graceful_witness :
    (∃ e, shorten_compound_type_annotation workerModule
        ["Dict", "[", "str", "]"] = .error e) ∧
    resolve_full_namespace_type workerModule (some "Nope") =
      .ok EMPTY_NAMESPACED_TYPE := by
  constructor
  · refine C8_compound_hard_error_simple_graceful.1 workerModule _
      ⟨"Dict", by decide, by decide, ?_⟩
    intro nt h
    have hd : resolve_full_namespace_type workerModule (some "Dict") =
        .ok EMPTY_NAMESPACED_TYPE := rfl
    rw [hd] at h
    cases h
    rfl
  · exact C8_compound_hard_error_simple_graceful.2 workerModule "Nope" rfl rfl

end Py2Puml.Claims

namespace Py2Puml

theorem any_key_eq_true_iff {α : Type} {d : List (String × α)} {k : String} :
    d.any (fun p => p.1 == k) = true ↔ k ∈ d.map Prod.fst := by
  rw [List.any_eq_true]
  constructor
  · rintro ⟨p, hp, hpk⟩
    exact List.mem_map.mpr ⟨p, hp, eq_of_beq hpk⟩
  · intro h
    obtain ⟨p, hp, hpk⟩ := List.mem_map.mp h
    exact ⟨p, hp, beq_iff_eq.mpr hpk⟩

theorem dictInsert_overwrites_in_place {α : Type} (d : List (String × α))
    (k : String) (v : α) (h : k ∈ d.map Prod.fst) :
    (dictInsert d k v).map Prod.fst = d.map Prod.fst ∧
    (dictInsert d k v).lookup k = some v :=
  ⟨dictInsert_map_fst_of_mem v (any_key_eq_true_iff.mpr h),
   dictInsert_lookup d k v⟩

theorem foldl_dictInsert_nodup_keys {α β : Type} (key : β → String)
    (val : β → α) :
    ∀ (l : List β) (d : List (String × α)), (d.map Prod.fst).Nodup →
      ((l.foldl (fun d b => dictInsert d (key b) (val b)) d).map
          Prod.fst).Nodup := by
  intro l
  induction l with
  | nil => intro d h; exact h
  | cons b rest ih =>
    intro d h
    simp only [List.foldl_cons]
    exact ih (dictInsert d (key b) (val b)) (dictInsert_nodup_keys (val b) h)

end Py2Puml

namespace Py2Puml.Methods

theorem ConstructorVisitor_visitStmt_nodup
    {s s' : ConstructorVisitorState} {stmt : StmtNode}
    (h : ConstructorVisitorState.visitStmt s stmt = .ok s')
    (hnd : (s.instance_attributes.map Prod.fst).Nodup) :
    (s'.instance_attributes.map Prod.fst).Nodup := by
  cases stmt with
  | assign targets value =>
    simp only [ConstructorVisitorState.visitStmt,
      ConstructorVisitorState.visit_Assign] at h
    cases hav : runAssignmentVisitor (.assign targets value) with
    | error e => rw [hav] at h; exact Except.noConfusion h
    | ok av =>
      rw [hav] at h
      simp only [Py2Puml.bind_ok_eq, Except.ok.injEq] at h
      subst h
      exact Py2Puml.foldl_dictInsert_nodup_keys
        (fun aa : AttributeAssignment =>
          ({ aa.instance_attribute with
              type_expr := lookupArgumentType s.arguments aa.variable_names }).name)
        (fun aa : AttributeAssignment =>
          { aa.instance_attribute with
              type_expr := lookupArgumentType s.arguments aa.variable_names })
        av.attribute_assignments s.instance_attributes hnd
  | annassign target ann value =>
    simp only [ConstructorVisitorState.visitStmt,
      ConstructorVisitorState.visit_AnnAssign] at h
    cases hav : runAssignmentVisitor (.annassign target ann value) with
    | error e => rw [hav] at h; exact Except.noConfusion h
    | ok av =>
      rw [hav] at h
      simp only [Py2Puml.bind_ok_eq] at h
      cases hh : av.attribute_assignments.head? with
      | none => rw [hh] at h; cases h; exact hnd
      | some aa0 =>
        rw [hh] at h
        cases ht : typeVisit ann with
        | error e => rw [ht] at h; exact Except.noConfusion h
        | ok ty =>
          rw [ht] at h
          simp only [Py2Puml.bind_ok_eq, Except.ok.injEq] at h
          subst h
          exact Py2Puml.dictInsert_nodup_keys _ hnd

theorem ConstructorVisitor_visitStmts_nodup
    {stmts : List StmtNode} :
    ∀ {s s' : ConstructorVisitorState},
      ConstructorVisitorState.visitStmts s stmts = .ok s' →
      (s.instance_attributes.map Prod.fst).Nodup →
      (s'.instance_attributes.map Prod.fst).Nodup := by
  induction stmts with
  | nil =>
    intro s s' h hnd
    simp only [ConstructorVisitorState.visitStmts] at h
    cases h
    exact hnd
  | cons stmt rest ih =>
    intro s s' h hnd
    simp only [ConstructorVisitorState.visitStmts] at h
    cases hx : ConstructorVisitorState.visitStmt s stmt with
    | error e => rw [hx] at h; exact Except.noConfusion h
    | ok s1 =>
      rw [hx] at h
      simp only [Py2Puml.bind_ok_eq] at h
      exact ih h (ConstructorVisitor_visitStmt_nodup hx hnd)

end Py2Puml.Methods

namespace Py2Puml.Classes

open Py2Puml.Methods

theorem visit_Assign_appends {targets : List PyExpr} :
    ∀ {s s' : ClassVisitorState},
      ClassVisitorState.visit_Assign s targets = .ok s' →
      ∃ δ, s'.attributes = s.attributes ++ δ ∧ s'.methods = s.methods := by
  induction targets with
  | nil =>
    intro s s' h
    simp only [ClassVisitorState.visit_Assign] at h
    cases h
    exact ⟨[], by simp, rfl⟩
  | cons t rest ih =>
    intro s s' h
    simp only [ClassVisitorState.visit_Assign] at h
    match t with
    | .name id =>
      simp only at h
      obtain ⟨δ, ha, hm⟩ := ih h
      refine ⟨(if s.is_dataclass then
          ClassBodyAttribute.instanceAttribute { name := id }
        else ClassBodyAttribute.classAttribute { name := id }) :: δ, ?_, hm⟩
      simp only at ha
      rw [ha]
      simp
    | .attr v a => simp only at h; exact Except.noConfusion h
    | .constant c => simp only at h; exact Except.noConfusion h
    | .binop l r => simp only at h; exact Except.noConfusion h
    | .tup es => simp only at h; exact Except.noConfusion h
    | .subscript v sl => simp only at h; exact Except.noConfusion h

theorem visitStmt_appends {s s' : ClassVisitorState} {stmt : ClassStmtNode}
    (h : ClassVisitorState.visitStmt s stmt = .ok s') :
    ∃ δa δm, s'.attributes = s.attributes ++ δa ∧
      s'.methods = s.methods ++ δm := by
  cases stmt with
  | assign targets value =>
    obtain ⟨δ, ha, hm⟩ := visit_Assign_appends h
    exact ⟨δ, [], ha, by rw [hm]; simp⟩
  | annassign target ann value =>
    simp only [ClassVisitorState.visitStmt,
      ClassVisitorState.visit_AnnAssign] at h
    cases ht : typeVisit ann with
    | error e => rw [ht] at h; exact Except.noConfusion h
    | ok ty =>
      rw [ht] at h
      simp only [Py2Puml.bind_ok_eq] at h
      match target with
      | .name id =>
        simp only [Except.ok.injEq] at h
        subst h
        exact ⟨_, [], rfl, by simp⟩
      | .attr v a => exact Except.noConfusion h
      | .constant c => exact Except.noConfusion h
      | .binop l r => exact Except.noConfusion h
      | .tup es => exact Except.noConfusion h
      | .subscript v sl => exact Except.noConfusion h
  | functiondef f =>
    simp only [ClassVisitorState.visitStmt,
      ClassVisitorState.visit_FunctionDef] at h
    cases hm : MethodVisitor_visit_FunctionDef f with
    | error e => rw [hm] at h; exact Except.noConfusion h
    | ok method =>
      rw [hm] at h
      simp only [Py2Puml.bind_ok_eq] at h
      cases hg : method.is_getter with
      | true =>
        rw [hg] at h
        simp only [if_true] at h
        cases hinit : (f.name == "__init__") with
        | true =>
          rw [hinit] at h
          simp only [if_true] at h
          cases hcv : runConstructorVisitor f with
          | error e => rw [hcv] at h; exact Except.noConfusion h
          | ok cv =>
            rw [hcv] at h
            simp only [Py2Puml.bind_ok_eq, Except.ok.injEq] at h
            subst h
            refine ⟨ClassBodyAttribute.instanceAttribute
                ⟨method.name, method.return_type⟩ ::
                cv.instance_attributes.map
                  (fun p => ClassBodyAttribute.instanceAttribute p.2),
              [], ?_, by simp⟩
            simp
        | false =>
          rw [hinit] at h
          simp only [Bool.false_eq_true, if_false, Except.ok.injEq] at h
          subst h
          exact ⟨_, [], rfl, by simp⟩
      | false =>
        rw [hg] at h
        simp only [Bool.false_eq_true, if_false] at h
        cases hinit : (f.name == "__init__") with
        | true =>
          rw [hinit] at h
          simp only [if_true] at h
          cases hcv : runConstructorVisitor f with
          | error e => rw [hcv] at h; exact Except.noConfusion h
          | ok cv =>
            rw [hcv] at h
            simp only [Py2Puml.bind_ok_eq, Except.ok.injEq] at h
            subst h
            exact ⟨_, [method], rfl, rfl⟩
        | false =>
          rw [hinit] at h
          simp only [Bool.false_eq_true, if_false, Except.ok.injEq] at h
          subst h
          exact ⟨[], [method], by simp, rfl⟩

theorem visitStmts_append_decomp :
    ∀ (l1 l2 : List ClassStmtNode) (s : ClassVisitorState),
      ClassVisitorState.visitStmts s (l1 ++ l2) =
        (ClassVisitorState.visitStmts s l1) >>=
          (fun s1 => ClassVisitorState.visitStmts s1 l2) := by
  intro l1
  induction l1 with
  | nil =>
    intro l2 s
    simp only [List.nil_append, ClassVisitorState.visitStmts,
      Py2Puml.bind_ok_eq]
  | cons stmt rest ih =>
    intro l2 s
    simp only [List.cons_append, ClassVisitorState.visitStmts]
    cases hx : ClassVisitorState.visitStmt s stmt with
    | error e => simp [Py2Puml.bind_error_eq]
    | ok s1 =>
      simp only [Py2Puml.bind_ok_eq]
      exact ih l2 s1

theorem visitStmts_appends {stmts : List ClassStmtNode} :
    ∀ {s s' : ClassVisitorState},
      ClassVisitorState.visitStmts s stmts = .ok s' →
      ∃ δa δm, s'.attributes = s.attributes ++ δa ∧
        s'.methods = s.methods ++ δm := by
  induction stmts with
  | nil =>
    intro s s' h
    simp only [ClassVisitorState.visitStmts] at h
    cases h
    exact ⟨[], [], by simp, by simp⟩
  | cons stmt rest ih =>
    intro s s' h
    simp only [ClassVisitorState.visitStmts] at h
    cases hx : ClassVisitorState.visitStmt s stmt with
    | error e => rw [hx] at h; exact Except.noConfusion h
    | ok s1 =>
      rw [hx] at h
      simp only [Py2Puml.bind_ok_eq] at h
      obtain ⟨δa1, δm1, ha1, hm1⟩ := visitStmt_appends hx
      obtain ⟨δa2, δm2, ha2, hm2⟩ := ih h
      exact ⟨δa1 ++ δa2, δm1 ++ δm2,
        by rw [ha2, ha1, List.append_assoc],
        by rw [hm2, hm1, List.append_assoc]⟩

theorem visit_FunctionDef_init_position
    {s s' : ClassVisitorState} {f : FunctionDefNode} {m : Method}
    {cv : ConstructorVisitorState}
    (hname : f.name = "__init__")
    (hm : MethodVisitor_visit_FunctionDef f = .ok m)
    (hg : m.is_getter = false)
    (hcv : runConstructorVisitor f = .ok cv)
    (h : ClassVisitorState.visit_FunctionDef s f = .ok s') :
    s' = { s with
      methods := s.methods ++ [m],
      attributes := s.attributes ++ cv.instance_attributes.map
        (fun p => ClassBodyAttribute.instanceAttribute p.2) } := by
  simp only [ClassVisitorState.visit_FunctionDef, hm, Py2Puml.bind_ok_eq,
    hg, Bool.false_eq_true, if_false, hname] at h
  rw [if_pos (by rfl : (("__init__" : String) == "__init__") = true)] at h
  rw [hcv] at h
  simp only [Py2Puml.bind_ok_eq, Except.ok.injEq] at h
  exact h.symm

end Py2Puml.Classes

namespace Py2Puml

theorem bind_ok_exists {ε α β : Type} {x : Except ε α} {f : α → Except ε β}
    {b : β} (h : (x >>= f) = .ok b) : ∃ a, x = .ok a ∧ f a = .ok b := by
  cases x with
  | error e => exact Except.noConfusion h
  | ok a => exact ⟨a, rfl, h⟩

end Py2Puml

namespace Py2Puml.Methods

theorem MethodVisitor_visit_FunctionDef_fields {f : FunctionDefNode}
    {m : Method} (h : MethodVisitor_visit_FunctionDef f = .ok m) :
    m.name = f.name ∧
    m.is_getter =
      ((f.decorator_list.map decorator_type).filter
        (fun d => d ≠ "")).contains "property" ∧
    (∀ r ty, f.returns = some r → typeVisit r = .ok ty →
      m.return_type = ty) := by
  simp only [MethodVisitor_visit_FunctionDef] at h
  obtain ⟨datatypes, hd, h⟩ := Py2Puml.bind_ok_exists h
  obtain ⟨args, ha, h⟩ := Py2Puml.bind_ok_exists h
  cases hret0 : f.returns with
  | none =>
    rw [hret0] at h
    simp only [Py2Puml.bind_ok_eq, Except.ok.injEq] at h
    subst h
    refine ⟨rfl, rfl, ?_⟩
    intro r ty hret hty
    exact Option.noConfusion hret
  | some r0 =>
    rw [hret0] at h
    obtain ⟨ty0, hty0, h⟩ := Py2Puml.bind_ok_exists h
    simp only [Except.ok.injEq] at h
    subst h
    refine ⟨rfl, rfl, ?_⟩
    intro r ty hret hty
    injection hret with hr
    subst hr
    exact Except.ok.inj (hty0.symm.trans hty)

end Py2Puml.Methods

namespace Py2Puml.Claims

open Py2Puml.Methods Py2Puml.Classes Py2Puml.Fixtures

/-- C9 (amended): the class builder's attribute list preserves
declaration order — the body is processed statement by statement
(decomposition over `++`) and every statement only appends its
contribution after the attributes and methods already collected — so
constructor-derived instance attributes appear strictly after all
class-level attributes that are declared before the constructor, at the
position of the `__init__` definition; when the constructor body
assigns the same attribute name more than once, the later assignment
overwrites the earlier attribute in place, keyed by attribute name
(`dictInsert` keeps the key sequence and the dict keys stay distinct),
as the `self.x = a; self.y = 0; self.x = b` constructor shows. -/
theorem C9_attribute_order_and_constructor_overwrite :
    (∀ (l1 l2 : List ClassStmtNode) (s : ClassVisitorState),
       ClassVisitorState.visitStmts s (l1 ++ l2) =
         (ClassVisitorState.visitStmts s l1) >>=
           (fun s1 => ClassVisitorState.visitStmts s1 l2)) ∧
    (∀ (s s' : ClassVisitorState) (stmts : List ClassStmtNode),
       ClassVisitorState.visitStmts s stmts = .ok s' →
       ∃ δa δm, s'.attributes = s.attributes ++ δa ∧
         s'.methods = s.methods ++ δm) ∧
    (∀ (s s' : ClassVisitorState) (f : FunctionDefNode) (m : Method)
       (cv : ConstructorVisitorState),
       f.name = "__init__" →
       MethodVisitor_visit_FunctionDef f = .ok m →
       m.is_getter = false →
       runConstructorVisitor f = .ok cv →
       ClassVisitorState.visit_FunctionDef s f = .ok s' →
       s' = { s with
         methods := s.methods ++ [m],
         attributes := s.attributes ++ cv.instance_attributes.map
           (fun p => ClassBodyAttribute.instanceAttribute p.2) }) ∧
    (∀ (d : List (String × InstanceAttribute)) (k : String)
       (v : InstanceAttribute),
       k ∈ d.map Prod.fst →
       (Py2Puml.dictInsert d k v).map Prod.fst = d.map Prod.fst ∧
       (Py2Puml.dictInsert d k v).lookup k = some v) ∧
    (∀ (s s' : ConstructorVisitorState) (stmts : List StmtNode),
       ConstructorVisitorState.visitStmts s stmts = .ok s' →
       (s.instance_attributes.map Prod.fst).Nodup →
       (s'.instance_attributes.map Prod.fst).Nodup) ∧
    (runConstructorVisitor overwritingCtor).map
        (fun cv => cv.instance_attributes) =
      .ok [("x", ⟨"x", some "str"⟩), ("y", ⟨"y", none⟩)] := by
  refine ⟨visitStmts_append_decomp, ?_, ?_, ?_, ?_, rfl⟩
  · intro s s' stmts h
    exact visitStmts_appends h
  · intro s s' f m cv hname hm hg hcv h
    exact visit_FunctionDef_init_position hname hm hg hcv h
  · intro d k v h
    exact Py2Puml.dictInsert_overwrites_in_place d k v h
  · intro s s' stmts h hnd
    exact ConstructorVisitor_visitStmts_nodup h hnd

/-- Witness for C9 at concrete inputs: the in-place overwrite of an
existing attribute key, and the position of the constructor-derived
attribute of `def __init__(self): self.x = 1`. -/
theorem C9_attribute_order_and_constructor_overwrite_witness :
    ((Py2Puml.dictInsert
        [("x", (⟨"x", some "int"⟩ : InstanceAttribute))] "x"
        ⟨"x", some "str"⟩).map Prod.fst =
      [("x", (⟨"x", some "int"⟩ : InstanceAttribute))].map Prod.fst ∧
     (Py2Puml.dictInsert
        [("x", (⟨"x", some "int"⟩ : InstanceAttribute))] "x"
        ⟨"x", some "str"⟩).lookup "x" = some ⟨"x", some "str"⟩) ∧
    (⟨none, [ClassBodyAttribute.instanceAttribute ⟨"x", none⟩],
       [⟨"__init__", [("self", none)], false, false, false, none⟩],
       [], [], false⟩ : ClassVisitorState) =
      { ({} : ClassVisitorState) with
        methods := ({} : ClassVisitorState).methods ++
          [⟨"__init__", [("self", none)], false, false, false, none⟩],
        attributes := ({} : ClassVisitorState).attributes ++
          ([("x", (⟨"x", none⟩ : InstanceAttribute))].map
            (fun p => ClassBodyAttribute.instanceAttribute p.2)) } := by
  constructor
  · exact C9_attribute_order_and_constructor_overwrite.2.2.2.1
      [("x", ⟨"x", some "int"⟩)] "x" ⟨"x", some "str"⟩ (by decide)
  · exact C9_attribute_order_and_constructor_overwrite.2.2.1
      ({} : ClassVisitorState)
      ⟨none, [ClassBodyAttribute.instanceAttribute ⟨"x", none⟩],
       [⟨"__init__", [("self", none)], false, false, false, none⟩],
       [], [], false⟩
      simpleCtor
      ⟨"__init__", [("self", none)], false, false, false, none⟩
      ⟨some "__init__", [], [("x", ⟨"x", none⟩)]⟩
      rfl rfl rfl rfl rfl

/-- Counterexample to C9 as stated: in a class whose body declares the
constructor before a class-level assignment `y = 2`, the
constructor-derived instance attribute `x` precedes the class-level
attribute `y` in the produced list — constructor-derived attributes do
not appear strictly after all class-level attributes. -/
theorem C9_counterexample_init_before_class_attribute :
    (visit_ClassDef initFirstClass).map (fun s => s.attributes) =
      .ok [ClassBodyAttribute.instanceAttribute ⟨"x", none⟩,
           ClassBodyAttribute.classAttribute ⟨"y", none⟩] := by
  rfl

/-- C10 (amended): a `property`-decorated method is recorded as an
instance attribute named after the method and typed with its declared
return type, and is not added to the method list; every other
(non-getter) method is added to the method list and, unless it is the
constructor `__init__`, contributes no attribute; the constructor
additionally contributes the instance attributes its body assigns. -/
theorem C10_property_getter_reclassification :
    (∀ (f : FunctionDefNode) (m : Method),
       MethodVisitor_visit_FunctionDef f = .ok m →
       m.name = f.name ∧
       m.is_getter =
         ((f.decorator_list.map decorator_type).filter
           (fun d => d ≠ "")).contains "property" ∧
       (∀ r ty, f.returns = some r → typeVisit r = .ok ty →
         m.return_type = ty)) ∧
    (∀ (s : ClassVisitorState) (f : FunctionDefNode) (m : Method),
       MethodVisitor_visit_FunctionDef f = .ok m →
       m.is_getter = true →
       (f.name == "__init__") = false →
       ClassVisitorState.visit_FunctionDef s f =
         .ok { s with attributes := s.attributes ++
           [ClassBodyAttribute.instanceAttribute
             ⟨m.name, m.return_type⟩] }) ∧
    (∀ (s : ClassVisitorState) (f : FunctionDefNode) (m : Method),
       MethodVisitor_visit_FunctionDef f = .ok m →
       m.is_getter = false →
       (f.name == "__init__") = false →
       ClassVisitorState.visit_FunctionDef s f =
         .ok { s with methods := s.methods ++ [m] }) ∧
    (∀ (s : ClassVisitorState) (f : FunctionDefNode) (m : Method)
       (cv : ConstructorVisitorState),
       MethodVisitor_visit_FunctionDef f = .ok m →
       m.is_getter = false →
       f.name = "__init__" →
       runConstructorVisitor f = .ok cv →
       ClassVisitorState.visit_FunctionDef s f =
         .ok { s with
           methods := s.methods ++ [m],
           attributes := s.attributes ++ cv.instance_attributes.map
             (fun p => ClassBodyAttribute.instanceAttribute p.2) }) := by
  refine ⟨?_, ?_, ?_, ?_⟩
  · intro f m h
    exact MethodVisitor_visit_FunctionDef_fields h
  · intro s f m hm hg hinit
    simp only [ClassVisitorState.visit_FunctionDef, hm, Py2Puml.bind_ok_eq,
      hg, if_true, hinit, Bool.false_eq_true, if_false]
  · intro s f m hm hg hinit
    simp only [ClassVisitorState.visit_FunctionDef, hm, Py2Puml.bind_ok_eq,
      hg, Bool.false_eq_true, if_false, hinit]
  · intro s f m cv hm hg hname hcv
    simp only [ClassVisitorState.visit_FunctionDef, hm, Py2Puml.bind_ok_eq,
      hg, Bool.false_eq_true, if_false, hname]
    rw [if_pos (by rfl : (("__init__" : String) == "__init__") = true)]
    rw [hcv]
    simp only [Py2Puml.bind_ok_eq]

/-- Witness for C10 at concrete inputs: the `total` getter is recorded
as a typed instance attribute and not as a method. -/
theorem C10_property_getter_reclassification_witness :
    ClassVisitorState.visit_FunctionDef ({} : ClassVisitorState) getterDef =
      .ok { ({} : ClassVisitorState) with
        attributes := [ClassBodyAttribute.instanceAttribute
          ⟨"total", some "float"⟩] } :=
  C10_property_getter_reclassification.2.1 ({} : ClassVisitorState)
    getterDef ⟨"total", [("self", none)], false, false, true, some "float"⟩
    rfl rfl rfl

/-- Counterexample to C10 as stated: the constructor
`def __init__(self): self.x = 1` carries no `property` decorator, is
added to the method list, and still contributes the instance attribute
`x` — a non-getter method definition can contribute attributes. -/
theorem C10_counterexample_init_contributes_attribute :
    (ClassVisitorState.visit_FunctionDef ({} : ClassVisitorState)
        simpleCtor).map
      (fun s => (s.methods.map (fun m => m.name), s.attributes)) =
    .ok (["__init__"],
         [ClassBodyAttribute.instanceAttribute ⟨"x", none⟩]) := by
  rfl

end Py2Puml.Claims

namespace Py2Puml.AstVisitors

open Py2Puml.Resolving

theorem recordAnnAttrs_spec (cf rf : String) (st : Option String)
    (fulls : List (Option String)) :
    ∀ (vs : List Variable) (s s' : ConstructorVisitorState),
      visit_AnnAssign.recordAnnAttrs cf rf st fulls s vs = .ok s' →
      s'.uml_attributes = s.uml_attributes ++
        vs.map (fun v => UmlAttribute.mk v.id st false) ∧
      s'.instance_attributes = s.instance_attributes ++
        vs.map (fun v => DomainInstanceAttribute.mk v.id st)
  | [], s, s', h => by
    simp only [visit_AnnAssign.recordAnnAttrs, Except.ok.injEq] at h
    subst h
    simp
  | v :: rest, s, s', h => by
    simp only [visit_AnnAssign.recordAnnAttrs] at h
    obtain ⟨rels, hrels, h⟩ := Py2Puml.bind_ok_exists h
    have ih := recordAnnAttrs_spec cf rf st fulls rest _ _ h
    refine ⟨?_, ?_⟩
    · rw [ih.1]; simp
    · rw [ih.2]; simp

theorem visit_AnnAssign_records_annotation_type
    {module : PyObj} {sp : String → List String} {cf rf : String}
    {s s' : ConstructorVisitorState} {t ann : PyExpr}
    {st : Option String} {fulls : List (Option String)}
    (hder : derive_type_annotation_details module sp (some ann) = .ok (st, fulls))
    (h : visit_AnnAssign module sp cf rf s t ann = .ok s') :
    s'.uml_attributes = s.uml_attributes ++
      (collectAssigned s.class_self_id (some ann) t).2.map
        (fun v => UmlAttribute.mk v.id st false) ∧
    s'.instance_attributes = s.instance_attributes ++
      (collectAssigned s.class_self_id (some ann) t).2.map
        (fun v => DomainInstanceAttribute.mk v.id st) := by
  simp only [visit_AnnAssign, hder, Py2Puml.bind_ok_eq] at h
  obtain ⟨s2, hs2, h⟩ := Py2Puml.bind_ok_exists h
  simp only [Except.ok.injEq] at h
  have hspec := recordAnnAttrs_spec cf rf st fulls _ _ _ hs2
  constructor
  · rw [← h]; exact hspec.1
  · rw [← h]; exact hspec.2

theorem get_from_namespace_shadow (s : ConstructorVisitorState)
    (pre post : List Variable) (v : Variable)
    (hns : s.variables_namespace = pre ++ v :: post)
    (hpost : ∀ w ∈ post, (w.id == v.id) = false) :
    get_from_namespace s v.id = some v := by
  simp only [get_from_namespace, hns, List.reverse_append, List.reverse_cons,
    List.find?_append]
  have h1 : post.reverse.find? (fun w => w.id == v.id) = none := by
    rw [List.find?_eq_none]
    intro w hw
    simp [hpost w (List.mem_reverse.mp hw)]
  have h2 : List.find? (fun w => w.id == v.id) [v] = some v := by
    simp [List.find?]
  rw [h1, h2]
  rfl

theorem recordSelfAttrsDeriving_null (module : PyObj)
    (sp : String → List String) (cf rf : String) :
    ∀ (vs : List Variable), (∀ v ∈ vs, v.type_expr = none) →
    ∀ (s : ConstructorVisitorState),
      recordSelfAttrsDeriving module sp cf rf s vs =
        .ok { s with
          uml_attributes := s.uml_attributes ++
            vs.map (fun v => UmlAttribute.mk v.id none false),
          instance_attributes := s.instance_attributes ++
            vs.map (fun v => DomainInstanceAttribute.mk v.id none) }
  | [], _, s => by
    simp [recordSelfAttrsDeriving]
  | v :: rest, hall, s => by
    have hv : v.type_expr = none := hall v (by simp)
    have hrest : ∀ w ∈ rest, w.type_expr = none :=
      fun w hw => hall w (List.mem_cons_of_mem _ hw)
    simp only [recordSelfAttrsDeriving, hv, derive_type_annotation_details,
      extend_relations, buildCandidates, Py2Puml.bind_ok_eq, List.foldl_nil]
    rw [recordSelfAttrsDeriving_null module sp cf rf rest hrest]
    simp [List.append_assoc]

end Py2Puml.AstVisitors

namespace Py2Puml.Claims

open Py2Puml.AstVisitors Py2Puml.Resolving Py2Puml.Fixtures

/-- C1 (amended): for a constructor-body attribute write rooted at the
receiver, the inferred type follows this priority — (1) an explicit
annotation on the assignment gives every collected receiver attribute
the annotation-derived type; (2) when the assigned value of an
unannotated assignment is a bare name and exactly one receiver
attribute was collected, the variable namespace is searched
most-recent-first (later rebindings shadow earlier ones, part one) and
a hit records the attribute with that variable's derived type details
(part three); (3) when that bare name is NOT bound in the namespace, no
attribute is recorded at all — the assignment is silently dropped
rather than recorded with a null type (part four); (4) only in the
remaining fallback cases (non-name values, or a target collecting a
number of receiver attributes different from one) is each receiver
attribute recorded with a null type (part five). -/
theorem C1_type_inference_priority :
    (∀ (s : ConstructorVisitorState) (pre post : List Variable) (v : Variable),
       s.variables_namespace = pre ++ v :: post →
       (∀ w ∈ post, (w.id == v.id) = false) →
       get_from_namespace s v.id = some v) ∧
    (∀ (module : PyObj) (sp : String → List String) (cf rf : String)
       (s s' : ConstructorVisitorState) (t ann : PyExpr)
       (st : Option String) (fulls : List (Option String)),
       derive_type_annotation_details module sp (some ann) = .ok (st, fulls) →
       visit_AnnAssign module sp cf rf s t ann = .ok s' →
       s'.uml_attributes = s.uml_attributes ++
         (collectAssigned s.class_self_id (some ann) t).2.map
           (fun v => UmlAttribute.mk v.id st false)) ∧
    (∀ (module : PyObj) (sp : String → List String) (cf rf vid : String)
       (s : ConstructorVisitorState) (t : PyExpr) (a av : Variable)
       (st : Option String) (fulls : List (Option String))
       (rels : List (String × UmlRelation)),
       (collectAssigned s.class_self_id none t).2 = [a] →
       get_from_namespace s vid = some av →
       derive_type_annotation_details module sp av.type_expr = .ok (st, fulls) →
       extend_relations cf rf s.uml_relations_by_target_fqn fulls = .ok rels →
       visitAssignTargets module sp cf rf (.name vid) s [t] =
         .ok { s with
           uml_attributes := s.uml_attributes ++ [UmlAttribute.mk a.id st false],
           instance_attributes :=
             s.instance_attributes ++ [DomainInstanceAttribute.mk a.id st],
           uml_relations_by_target_fqn := rels,
           variables_namespace := s.variables_namespace ++
             (collectAssigned s.class_self_id none t).1 }) ∧
    (∀ (module : PyObj) (sp : String → List String) (cf rf vid : String)
       (s : ConstructorVisitorState) (t : PyExpr) (a : Variable),
       (collectAssigned s.class_self_id none t).2 = [a] →
       get_from_namespace s vid = none →
       visitAssignTargets module sp cf rf (.name vid) s [t] =
         .ok { s with variables_namespace := s.variables_namespace ++
           (collectAssigned s.class_self_id none t).1 }) ∧
    (∀ (module : PyObj) (sp : String → List String) (cf rf : String)
       (vs : List Variable), (∀ v ∈ vs, v.type_expr = none) →
       ∀ (s : ConstructorVisitorState),
       recordSelfAttrsDeriving module sp cf rf s vs =
         .ok { s with
           uml_attributes := s.uml_attributes ++
             vs.map (fun v => UmlAttribute.mk v.id none false),
           instance_attributes := s.instance_attributes ++
             vs.map (fun v => DomainInstanceAttribute.mk v.id none) }) := by
  refine ⟨get_from_namespace_shadow, ?_, ?_, ?_, recordSelfAttrsDeriving_null⟩
  · intro module sp cf rf s s' t ann st fulls hder h
    exact (visit_AnnAssign_records_annotation_type hder h).1
  · intro module sp cf rf vid s t a av st fulls rels hcol hns hder hrel
    simp only [visitAssignTargets, visitAssignTarget, hcol, hns, hder, hrel,
      Py2Puml.bind_ok_eq, List.length_cons, List.length_nil, List.headD_cons]
    simp
    rfl
  · intro module sp cf rf vid s t a hcol hns
    simp only [visitAssignTargets, visitAssignTarget, hcol, hns,
      Py2Puml.bind_ok_eq, List.length_cons, List.length_nil]
    simp
    rfl

/-- Witness for C1 at concrete inputs: after the signature
`def __init__(self, xx: int)`, the unannotated write `self.x = xx`
records attribute `x` with the type `int` found for `xx` in the
variable namespace. -/
theorem C1_type_inference_priority_witness :
    visitAssignTargets intOnlyModule noSplit "m.C" "root"
        (.name "xx") sigState [.attr (.name "self") "x"] =
      .ok { sigState with
        uml_attributes := [⟨"x", some "int", false⟩],
        instance_attributes := [⟨"x", some "int"⟩],
        uml_relations_by_target_fqn := [],
        variables_namespace := sigState.variables_namespace ++ [] } :=
  C1_type_inference_priority.2.2.1 intOnlyModule noSplit "m.C" "root" "xx"
    sigState (.attr (.name "self") "x") ⟨"x", none⟩ ⟨"xx", some (.name "int")⟩
    (some "int") [some "builtins.int"] [] rfl rfl rfl rfl

/-- Counterexample to C1 as stated: in the same constructor scope, the
unannotated write `self.x = foo` whose value `foo` is bound nowhere in
the namespace records NO attribute at all — the claim's final priority
tier (record the attribute with a null type) does not apply to a
single-receiver-attribute assignment from an unknown bare name. -/
theorem C1_counterexample_unknown_name_drops_attribute :
    (visitAssignTargets intOnlyModule noSplit "m.C" "root"
        (.name "foo") sigState [.attr (.name "self") "x"]).map
      (fun s => s.uml_attributes) = .ok [] := by
  rfl

end Py2Puml.Claims
